import Mathlib

/-!
Verification of the zentinel AI-gateway agent.

This file shallowly embeds the gateway's Rust sources (provider detection and
canonical parsing, the PII / prompt-injection / jailbreak detectors, the
JSON-schema validators, the per-client rate limiter and the request pipeline
`process_body` / `check_request`) as executable Lean definitions and proves
properties of them.  Rust strings are modelled as Lean strings; the regex
byte offsets used by the detectors are modelled as character indices, which
produce the same sliced text because regex matches always fall on character
boundaries.  `u32` / `u64` counters are modelled as `Nat`; Rust's checked
semantics treats overflow as a program error rather than an admitted request,
so no admitted execution differs from the `Nat` model.  Character classes of
the regexes are modelled over ASCII, on which the Unicode-aware Rust classes
coincide.
-/

/-! ## Basic character and list helpers -/

/-- ASCII decimal digit, the `\d` class of the source regexes (ASCII model). -/
def isDigitC (c : Char) : Bool := '0' ≤ c && c ≤ '9'

/-- ASCII letter. -/
def isAlphaC (c : Char) : Bool :=
  ('a' ≤ c && c ≤ 'z') || ('A' ≤ c && c ≤ 'Z')

/-- Word character for `\b`, as in the source regexes (ASCII model). -/
def isWordC (c : Char) : Bool := isAlphaC c || isDigitC c || c = '_'

/-- Whitespace for `\s` (ASCII model of the regex class). -/
def isSpaceC (c : Char) : Bool :=
  c = ' ' || c = '\t' || c = '\n' || c = '\r' || c = '\x0b' || c = '\x0c'

/-- `p` begins `l`. -/
def leadsWith : List Char → List Char → Bool
  | _, [] => true
  | [], _ :: _ => false
  | c :: l, d :: p => c = d && leadsWith l p

/-- `sub` occurs somewhere in `l` (Rust `str::contains`). -/
def hasSubstr (l sub : List Char) : Bool :=
  (List.range (l.length + 1)).any fun i => leadsWith (l.drop i) sub

/-- Rust `str::starts_with` on our string model. -/
def strLeads (s p : String) : Bool := leadsWith s.data p.data

/-- Rust `str::contains` on our string model. -/
def strHas (s sub : String) : Bool := hasSubstr s.data sub.data

/-- Byte length of one character when UTF-8 encoded (Rust `char::len_utf8`). -/
def utf8Len (c : Char) : Nat :=
  if c.val < 0x80 then 1
  else if c.val < 0x800 then 2
  else if c.val < 0x10000 then 3
  else 4

/-- Byte length of a string when UTF-8 encoded (Rust `str::len`). -/
def byteLen (s : String) : Nat := (s.data.map utf8Len).sum

/-! ## A small regex engine

The detector regexes of the source are fixed; we embed them with a small
backtracking engine whose preference order (alternation left first,
quantifiers greedy) is that of the `regex` crate's leftmost-first semantics.
`mrun t re i` returns the candidate end positions of a match of `re` starting
at position `i` of `t`, in preference order. -/

inductive RE where
  /-- one character of a class -/
  | cls (p : Char → Bool)
  /-- empty -/
  | eps
  /-- word boundary `\b` -/
  | wb
  /-- concatenation -/
  | seq (a b : RE)
  /-- alternation, left preferred -/
  | alt (a b : RE)
  /-- greedy option `?` -/
  | opt (r : RE)
  /-- greedy star over a character class -/
  | star (p : Char → Bool)
  /-- greedy plus over a character class -/
  | plus (p : Char → Bool)

/-- Exact repetition `r{n}`, by unfolding. -/
def repRE : Nat → RE → RE
  | 0, _ => .eps
  | n + 1, r => .seq r (repRE n r)

/-- Sequence a list of regexes. -/
def seqList : List RE → RE
  | [] => .eps
  | [r] => r
  | r :: rs => .seq r (seqList rs)

/-- One exact character. -/
def chRE (c : Char) : RE := .cls (fun d => d = c)

/-- One character, ASCII case-insensitively (the `(?i)` flag of the source). -/
def ciRE (c : Char) : RE := .cls (fun d => d.toLower = c.toLower)

/-- A literal string, case-insensitively. -/
def ciStr (s : String) : RE := seqList (s.data.map ciRE)

/-- A literal string, case-sensitively. -/
def litStr (s : String) : RE := seqList (s.data.map chRE)

/-- Is the character at position `i` (if any) a word character? -/
def wordAt (t : List Char) (i : Nat) : Bool :=
  match t[i]? with
  | some c => isWordC c
  | none => false

/-- Word boundary at position `i` of `t`. -/
def isBoundary (t : List Char) (i : Nat) : Bool :=
  (if i = 0 then false else wordAt t (i - 1)) != wordAt t i

/-- Length of the maximal run of characters satisfying `p` from position `i`. -/
def runLen (t : List Char) (p : Char → Bool) (i : Nat) : Nat :=
  ((t.drop i).takeWhile p).length

/-- Candidate match end positions of `re` at position `i`, in the engine's
preference order (greedy, alternation left first). -/
def mrun (t : List Char) : RE → Nat → List Nat
  | .cls p, i =>
      match t[i]? with
      | some c => if p c then [i + 1] else []
      | none => []
  | .eps, i => [i]
  | .wb, i => if isBoundary t i then [i] else []
  | .seq a b, i => (mrun t a i).flatMap fun j => mrun t b j
  | .alt a b, i => mrun t a i ++ mrun t b i
  | .opt r, i => mrun t r i ++ [i]
  | .star p, i =>
      let k := runLen t p i
      (List.range (k + 1)).map fun j => i + (k - j)
  | .plus p, i =>
      let k := runLen t p i
      (List.range k).map fun j => i + (k - j)

/-- First (leftmost, then preference-first) match of `re` at or after `start`. -/
def firstMatchFrom (t : List Char) (re : RE) (start : Nat) : Option (Nat × Nat) :=
  ((List.range' start (t.length + 1 - start)).filterMap fun i =>
    (mrun t re i).head?.map fun e => (i, e)).head?

/-- All non-overlapping matches in leftmost-first order (`find_iter`). -/
def findAllGo (t : List Char) (re : RE) : Nat → Nat → List (Nat × Nat)
  | 0, _ => []
  | fuel + 1, start =>
      match firstMatchFrom t re start with
      | none => []
      | some (s, e) => (s, e) :: findAllGo t re fuel (max e (s + 1))

/-- All matches of `re` in `t` (Rust `Regex::find_iter`). -/
def findAll (t : List Char) (re : RE) : List (Nat × Nat) :=
  findAllGo t re (t.length + 1) 0

/-- Does `re` match anywhere in `t` (Rust `Regex::is_match`)? -/
def reSearch (t : List Char) (re : RE) : Bool :=
  (firstMatchFrom t re 0).isSome

/-! ## PII detector (`src/detection/pii.rs`) -/

/-- Types of PII that can be detected (`PiiType`). -/
inductive PiiType where
  | email
  | ssn
  | phoneNumber
  | creditCard
  | ipAddress
deriving DecidableEq, Repr

/-- The enum discriminant used by `sort_by_key(|t| *t as u8)`. -/
def PiiType.ord : PiiType → Nat
  | .email => 0
  | .ssn => 1
  | .phoneNumber => 2
  | .creditCard => 3
  | .ipAddress => 4

/-- `PiiType::as_str`. -/
def PiiType.asStr : PiiType → String
  | .email => "email"
  | .ssn => "ssn"
  | .phoneNumber => "phone"
  | .creditCard => "credit-card"
  | .ipAddress => "ip-address"

/-- `PiiType::redaction`. -/
def PiiType.redaction : PiiType → String
  | .email => "[EMAIL REDACTED]"
  | .ssn => "[SSN REDACTED]"
  | .phoneNumber => "[PHONE REDACTED]"
  | .creditCard => "[CARD REDACTED]"
  | .ipAddress => "[IP REDACTED]"

/-- A match of PII in text (`PiiMatch`); offsets are positions in the text. -/
structure PiiMatch where
  piiType : PiiType
  start : Nat
  endPos : Nat
  matched : String
deriving DecidableEq, Repr

/-- Character class `[a-zA-Z0-9._%+-]` of the email regex. -/
def emailLocalCls (c : Char) : Bool :=
  isAlphaC c || isDigitC c || c = '.' || c = '_' || c = '%' || c = '+' || c = '-'

/-- Character class `[a-zA-Z0-9.-]` of the email regex. -/
def emailDomCls (c : Char) : Bool := isAlphaC c || isDigitC c || c = '.' || c = '-'

/-- `[a-zA-Z0-9._%+-]+@[a-zA-Z0-9.-]+\.[a-zA-Z]{2,}`. -/
def emailRE : RE :=
  seqList [.plus emailLocalCls, chRE '@', .plus emailDomCls, chRE '.',
    repRE 2 (.cls isAlphaC), .star isAlphaC]

/-- `\b\d{3}-\d{2}-\d{4}\b`. -/
def ssnRE : RE :=
  seqList [.wb, repRE 3 (.cls isDigitC), chRE '-', repRE 2 (.cls isDigitC),
    chRE '-', repRE 4 (.cls isDigitC), .wb]

/-- Separator class `[-.\s]` of the phone regex. -/
def phoneSepCls (c : Char) : Bool := c = '-' || c = '.' || isSpaceC c

/-- `\b(?:\+1[-.\s]?)?\(?\d{3}\)?[-.\s]?\d{3}[-.\s]?\d{4}\b`. -/
def phoneRE : RE :=
  seqList [.wb,
    .opt (seqList [chRE '+', chRE '1', .opt (.cls phoneSepCls)]),
    .opt (chRE '('), repRE 3 (.cls isDigitC), .opt (chRE ')'),
    .opt (.cls phoneSepCls), repRE 3 (.cls isDigitC),
    .opt (.cls phoneSepCls), repRE 4 (.cls isDigitC), .wb]

/-- Separator class `[-\s]` of the credit-card regex. -/
def cardSepCls (c : Char) : Bool := c = '-' || isSpaceC c

/-- `\b\d{4}[-\s]?\d{4}[-\s]?\d{4}[-\s]?\d{4}\b`. -/
def creditCardRE : RE :=
  seqList [.wb, repRE 4 (.cls isDigitC),
    .opt (.cls cardSepCls), repRE 4 (.cls isDigitC),
    .opt (.cls cardSepCls), repRE 4 (.cls isDigitC),
    .opt (.cls cardSepCls), repRE 4 (.cls isDigitC), .wb]

/-- One octet `25[0-5]|2[0-4][0-9]|[01]?[0-9][0-9]?`, alternation order as written. -/
def ipOctetRE : RE :=
  .alt (seqList [chRE '2', chRE '5', .cls fun c => '0' ≤ c && c ≤ '5'])
    (.alt (seqList [chRE '2', .cls (fun c => '0' ≤ c && c ≤ '4'), .cls isDigitC])
      (seqList [.opt (.cls fun c => c = '0' || c = '1'), .cls isDigitC,
        .opt (.cls isDigitC)]))

/-- `\b(?:octet\.){3}octet\b`. -/
def ipRE : RE :=
  seqList [.wb, repRE 3 (.seq ipOctetRE (chRE '.')), ipOctetRE, .wb]

/-- All matches of one pattern, tagged with a `PiiType`. -/
def piiMatchesOf (t : List Char) (ty : PiiType) (re : RE) : List PiiMatch :=
  (findAll t re).map fun m =>
    ⟨ty, m.1, m.2, String.mk ((t.drop m.1).take (m.2 - m.1))⟩

/-- Post-filter of `detect`: skip localhost and common private IP ranges. -/
def ipKeep (m : PiiMatch) : Bool :=
  !(strLeads m.matched "127." || strLeads m.matched "10." ||
    strLeads m.matched "192.168." || strLeads m.matched "0.")

/-- Stable insertion of a match before later-listed matches of larger start
offset (`sort_by_key(|m| m.start)` is a stable sort). -/
def insertByStart (m : PiiMatch) : List PiiMatch → List PiiMatch
  | [] => [m]
  | x :: xs => if x.start < m.start then x :: insertByStart m xs else m :: x :: xs

/-- Stable sort by start offset. -/
def sortByStart : List PiiMatch → List PiiMatch
  | [] => []
  | m :: ms => insertByStart m (sortByStart ms)

/-- `PiiDetector::detect`: all PII matches, per-type in match order, then
stably sorted by start position. -/
def piiDetect (text : String) : List PiiMatch :=
  let t := text.data
  sortByStart
    (piiMatchesOf t .email emailRE ++ piiMatchesOf t .ssn ssnRE ++
      piiMatchesOf t .phoneNumber phoneRE ++ piiMatchesOf t .creditCard creditCardRE ++
      (piiMatchesOf t .ipAddress ipRE).filter ipKeep)

/-- `PiiDetector::redact`.  The source slices `&text[last_end..m.start]`;
a slice whose start exceeds its end (overlapping matches) or the text length
panics in Rust, which we model as `none`. -/
def redactGo (t : List Char) : List PiiMatch → Nat → Option (List Char)
  | [], lastEnd => if lastEnd ≤ t.length then some (t.drop lastEnd) else none
  | m :: ms, lastEnd =>
      if lastEnd ≤ m.start && m.start ≤ t.length then
        (redactGo t ms m.endPos).map fun rest =>
          (t.drop lastEnd).take (m.start - lastEnd) ++ m.piiType.redaction.data ++ rest
      else none

/-- `PiiDetector::redact` on a string: `none` models the Rust panic on an
invalid slice. -/
def piiRedact (text : String) : Option String :=
  let ms := piiDetect text
  if ms.isEmpty then some text
  else (redactGo text.data ms 0).map String.mk

/-- Insertion sort of PII types by discriminant (`sort_by_key(|t| *t as u8)`). -/
def insertByOrd (ty : PiiType) : List PiiType → List PiiType
  | [] => [ty]
  | x :: xs => if x.ord < ty.ord then x :: insertByOrd ty xs else ty :: x :: xs

/-- Sort PII types by discriminant. -/
def sortByOrd : List PiiType → List PiiType
  | [] => []
  | ty :: tys => insertByOrd ty (sortByOrd tys)

/-- Rust `Vec::dedup`: drop consecutive duplicates. -/
def dedupAdj : List PiiType → List PiiType
  | [] => []
  | [t] => [t]
  | a :: b :: ts => if a = b then dedupAdj (b :: ts) else a :: dedupAdj (b :: ts)

/-- `PiiDetector::detect_types`: unique PII types found in `text`. -/
def piiDetectTypes (text : String) : List PiiType :=
  dedupAdj (sortByOrd ((piiDetect text).map (·.piiType)))

/-! ## Prompt-injection detector (`src/detection/prompt_injection.rs`) -/

/-- `\s+` -/
def ws1 : RE := .plus isSpaceC

/-- An optional group followed by whitespace, e.g. `(all\s+)?`. -/
def optWord (s : String) : RE := .opt (.seq (ciStr s) ws1)

/-- The INJECTION_PATTERNS list, in source order. -/
def injectionPatterns : List RE :=
  [ seqList [ciStr "ignore", ws1, optWord "all", ciStr "previous", ws1,
      ciStr "instruction", .opt (ciRE 's')],
    seqList [ciStr "ignore", ws1, optWord "all", ciStr "prior", ws1,
      ciStr "instruction", .opt (ciRE 's')],
    seqList [ciStr "disregard", ws1, optWord "all", ciStr "previous"],
    seqList [ciStr "forget", ws1, optWord "all", optWord "your",
      ciStr "instruction", .opt (ciRE 's')],
    seqList [ciStr "override", ws1, optWord "your", ciStr "instruction", .opt (ciRE 's')],
    seqList [ciStr "new", ws1, ciStr "instruction", .opt (ciRE 's'), chRE ':'],
    seqList [ciStr "updated", ws1, ciStr "instruction", .opt (ciRE 's'), chRE ':'],
    seqList [ciStr "system", ws1, ciStr "prompt:"],
    ciStr "[system]",
    ciStr "<system>",
    seqList [ciStr "you", ws1, ciStr "are", ws1, ciStr "now", ws1, ciStr "a"],
    seqList [ciStr "act", ws1, ciStr "as", ws1, ciStr "if", ws1, ciStr "you"],
    seqList [ciStr "pretend", ws1,
      .alt (seqList [ciStr "to", ws1, ciStr "be"]) (seqList [ciStr "you", ws1, ciStr "are"])],
    seqList [ciStr "roleplay", ws1, ciStr "as"],
    seqList [ciStr "simulate", ws1, ciStr "being"],
    seqList [ciStr "reveal", ws1, optWord "your", ciStr "system", ws1, ciStr "prompt"],
    seqList [ciStr "show", ws1, optWord "me", optWord "your", ciStr "instructions"],
    seqList [ciStr "what", ws1, .alt (ciStr "are") (ciStr "is"), ws1, optWord "your",
      ciStr "system", ws1, ciStr "prompt"],
    seqList [ciStr "print", ws1, optWord "your", ciStr "initial", ws1, ciStr "prompt"],
    seqList [ciStr "end", ws1, ciStr "of", ws1, ciStr "system", ws1, ciStr "prompt"],
    seqList [chRE '<', .opt (chRE '/'),
      .alt (ciStr "system") (.seq (ciStr "instruction") (.opt (ciRE 's'))), chRE '>'],
    seqList [chRE '[', .opt (chRE '/'), ciStr "INST", chRE ']'],
    ciStr "<<SYS>>" ]

/-- `RegexSet::matches(text)` is non-empty: some pattern matches somewhere. -/
def anyPatternMatches (patterns : List RE) (text : String) : Bool :=
  patterns.any fun re => reSearch text.data re

/-- `PromptInjectionDetector::detect`. -/
def promptInjectionDetect (text : String) : Option String :=
  if anyPatternMatches injectionPatterns text then some "prompt-injection" else none

/-- `PromptInjectionDetector::detect_any`: first positive detection. -/
def promptInjectionDetectAny (texts : List String) : Option String :=
  texts.foldr (fun t acc => (promptInjectionDetect t).orElse fun _ => acc) none

/-! ## Jailbreak detector (`src/detection/jailbreak.rs`) -/

/-- The JAILBREAK_PATTERNS list, in source order. -/
def jailbreakPatterns : List RE :=
  [ seqList [.wb, ciStr "DAN", .wb],
    seqList [ciStr "do", ws1, ciStr "anything", ws1, ciStr "now"],
    ciStr "STAN",
    ciStr "DUDE",
    ciStr "jailbreak",
    seqList [ciStr "jail", .star isSpaceC, ciStr "break"],
    seqList [ciStr "unlock", ws1, ciStr "your", ws1, optWord "full", ciStr "potential"],
    seqList [ciStr "developer", ws1, ciStr "mode"],
    seqList [ciStr "debug", ws1, ciStr "mode"],
    seqList [ciStr "maintenance", ws1, ciStr "mode"],
    seqList [ciStr "sudo", ws1, ciStr "mode"],
    seqList [ciStr "god", ws1, ciStr "mode"],
    seqList [ciStr "admin", ws1, ciStr "mode"],
    seqList [ciStr "bypass", ws1, optWord "your", ciStr "programming"],
    seqList [ciStr "bypass", ws1, optWord "your", ciStr "restrictions"],
    seqList [ciStr "bypass", ws1, optWord "your", ciStr "filters"],
    seqList [ciStr "bypass", ws1, optWord "your", ciStr "safety"],
    seqList [ciStr "bypass", ws1, optWord "your", ciStr "guidelines"],
    seqList [ciStr "circumvent", ws1, optWord "your", ciStr "rules"],
    seqList [ciStr "ignore", ws1, optWord "your", ciStr "ethical"],
    seqList [ciStr "ignore", ws1, optWord "your", ciStr "moral"],
    seqList [ciStr "ignore", ws1, optWord "your", ciStr "safety"],
    seqList [ciStr "without", ws1, optWord "any", ciStr "restrictions"],
    seqList [ciStr "no", ws1, ciStr "limitations"],
    seqList [ciStr "unrestricted", ws1, ciStr "mode"],
    seqList [ciStr "hypothetically", ws1, ciStr "speaking"],
    seqList [ciStr "in", ws1, ciStr "a", ws1, ciStr "hypothetical", ws1, ciStr "scenario"],
    seqList [ciStr "for", ws1, ciStr "educational", ws1, ciStr "purposes", ws1, ciStr "only"],
    seqList [ciStr "for", ws1, ciStr "research", ws1, ciStr "purposes"],
    seqList [ciStr "purely", ws1, ciStr "academic"],
    seqList [ciStr "in", ws1, ciStr "fiction"],
    seqList [ciStr "in", ws1, ciStr "a", ws1, ciStr "novel"],
    seqList [ciStr "in", ws1, ciStr "a", ws1, ciStr "movie"],
    seqList [ciStr "evil", ws1,
      .alt (ciStr "twin") (.alt (ciStr "version") (ciStr "mode"))],
    seqList [ciStr "dark", ws1, ciStr "mode"],
    seqList [ciStr "uncensored", ws1, .alt (ciStr "version") (ciStr "mode")],
    seqList [ciStr "unfiltered", ws1, .alt (ciStr "version") (ciStr "mode")],
    ciStr "[jailbreak]",
    ciStr "[unlock]",
    ciStr "[unrestricted]",
    ciStr "```jailbreak" ]

/-- `JailbreakDetector::detect`. -/
def jailbreakDetect (text : String) : Option String :=
  if anyPatternMatches jailbreakPatterns text then some "jailbreak-attempt" else none

/-- `JailbreakDetector::detect_any`: first positive detection. -/
def jailbreakDetectAny (texts : List String) : Option String :=
  texts.foldr (fun t acc => (jailbreakDetect t).orElse fun _ => acc) none

/-! ## JSON values and parser (`serde_json` model)

Numbers are modelled as exact rationals; the claims never depend on `f64`
rounding.  Object fields are kept in source order and looked up by first
occurrence; the request bodies of interest have unique keys. -/

inductive Json where
  | null
  | bool (b : Bool)
  | num (q : ℚ)
  | str (s : String)
  | arr (elems : List Json)
  | obj (fields : List (String × Json))

/-- `Value::get` on an object; `none` on non-objects and absent keys. -/
def Json.get : Json → String → Option Json
  | .obj fields, key => fields.lookup key
  | _, _ => none

/-- JSON whitespace. -/
def isJsonWs (c : Char) : Bool := c = ' ' || c = '\t' || c = '\n' || c = '\r'

/-- Skip JSON whitespace. -/
def skipWs (cs : List Char) : List Char := cs.dropWhile isJsonWs

/-- Hex digit value. -/
def hexVal (c : Char) : Option Nat :=
  let n := c.toNat
  if 48 ≤ n ∧ n ≤ 57 then some (n - 48)
  else if 97 ≤ n ∧ n ≤ 102 then some (n - 87)
  else if 65 ≤ n ∧ n ≤ 70 then some (n - 55)
  else none

/-- Four hex digits. -/
def hex4 : List Char → Option (Nat × List Char)
  | a :: b :: c :: d :: rest => do
      let va ← hexVal a
      let vb ← hexVal b
      let vc ← hexVal c
      let vd ← hexVal d
      some (((va * 16 + vb) * 16 + vc) * 16 + vd, rest)
  | _ => none

/-- Parse the contents of a JSON string after the opening quote, handling
escapes and surrogate pairs; rejects raw control characters and lone
surrogates as `serde_json` does. -/
def pStrChars : Nat → List Char → Option (List Char × List Char)
  | 0, _ => none
  | fuel + 1, cs =>
    match cs with
    | [] => none
    | '"' :: rest => some ([], rest)
    | '\\' :: esc =>
      match esc with
      | '"' :: rest => (pStrChars fuel rest).map fun r => ('"' :: r.1, r.2)
      | '\\' :: rest => (pStrChars fuel rest).map fun r => ('\\' :: r.1, r.2)
      | '/' :: rest => (pStrChars fuel rest).map fun r => ('/' :: r.1, r.2)
      | 'b' :: rest => (pStrChars fuel rest).map fun r => ('\x08' :: r.1, r.2)
      | 'f' :: rest => (pStrChars fuel rest).map fun r => ('\x0c' :: r.1, r.2)
      | 'n' :: rest => (pStrChars fuel rest).map fun r => ('\n' :: r.1, r.2)
      | 'r' :: rest => (pStrChars fuel rest).map fun r => ('\r' :: r.1, r.2)
      | 't' :: rest => (pStrChars fuel rest).map fun r => ('\t' :: r.1, r.2)
      | 'u' :: rest => do
          let (n, rest2) ← hex4 rest
          if 0xD800 ≤ n && n ≤ 0xDBFF then
            match rest2 with
            | '\\' :: 'u' :: rest3 => do
                let (lo, rest4) ← hex4 rest3
                if 0xDC00 ≤ lo && lo ≤ 0xDFFF then
                  let code := 0x10000 + (n - 0xD800) * 0x400 + (lo - 0xDC00)
                  (pStrChars fuel rest4).map fun r => (Char.ofNat code :: r.1, r.2)
                else none
            | _ => none
          else if 0xDC00 ≤ n && n ≤ 0xDFFF then none
          else (pStrChars fuel rest2).map fun r => (Char.ofNat n :: r.1, r.2)
      | _ => none
    | c :: rest =>
      if c.val < 0x20 then none
      else (pStrChars fuel rest).map fun r => (c :: r.1, r.2)

/-- Take a nonempty run of decimal digits, returning their value and count. -/
def pDigits (cs : List Char) : Option (Nat × Nat × List Char) :=
  let ds := cs.takeWhile isDigitC
  if ds.isEmpty then none
  else some (ds.foldl (fun n c => n * 10 + (c.toNat - '0'.toNat)) 0, ds.length, cs.drop ds.length)

/-- Optional fraction part `.digits`; an orphan dot is a parse error. -/
def pFrac (cs : List Char) : Option (Nat × Nat × List Char) :=
  match cs with
  | '.' :: rest => pDigits rest
  | _ => some (0, 0, cs)

/-- Optional exponent `e|E [+|-] digits`; a marker without digits is an error. -/
def pExp (cs : List Char) : Option (Int × List Char) :=
  match cs with
  | 'e' :: rest | 'E' :: rest =>
    (match rest with
     | '+' :: rest2 => (pDigits rest2).map fun r => ((r.1 : Int), r.2.2)
     | '-' :: rest2 => (pDigits rest2).map fun r => (-(r.1 : Int), r.2.2)
     | _ => (pDigits rest).map fun r => ((r.1 : Int), r.2.2))
  | _ => some (0, cs)

/-- Parse a JSON number (strict grammar: optional minus, `0` or a nonzero-led
integer, optional fraction, optional exponent) into an exact rational. -/
def pNumber (cs : List Char) : Option (ℚ × List Char) := do
  let (neg, cs1) := match cs with
    | '-' :: rest => (true, rest)
    | _ => (false, cs)
  let (ipart, icnt, cs2) ← pDigits cs1
  -- leading zeros are not allowed except for the single digit 0
  if icnt > 1 && cs1.head? = some '0' then none else do
  let (fpart, fcnt, cs3) ← pFrac cs2
  let (ex, cs4) ← pExp cs3
  let q : ℚ := ((ipart : ℚ) * (10 : ℚ) ^ fcnt + (fpart : ℚ)) / (10 : ℚ) ^ fcnt *
    (10 : ℚ) ^ ex
  some (if neg then -q else q, cs4)

mutual

/-- Parse one JSON value; `fuel` dominates the recursion depth and the
number of aggregate members, both bounded by the input length. -/
def pJson : Nat → List Char → Option (Json × List Char)
  | 0, _ => none
  | fuel + 1, cs =>
    match skipWs cs with
    | '\x7b' :: rest =>
      (match skipWs rest with
       | '\x7d' :: rest2 => some (.obj [], rest2)
       | rest2 => (pFields fuel rest2).map fun r => (.obj r.1, r.2))
    | '[' :: rest =>
      (match skipWs rest with
       | ']' :: rest2 => some (.arr [], rest2)
       | rest2 => (pElems fuel rest2).map fun r => (.arr r.1, r.2))
    | '"' :: rest =>
      (pStrChars (rest.length + 1) rest).map fun r => (.str (String.mk r.1), r.2)
    | 't' :: rest =>
      if leadsWith rest "rue".data then some (.bool true, rest.drop 3) else none
    | 'f' :: rest =>
      if leadsWith rest "alse".data then some (.bool false, rest.drop 4) else none
    | 'n' :: rest =>
      if leadsWith rest "ull".data then some (.null, rest.drop 3) else none
    | cs2 => (pNumber cs2).map fun r => (.num r.1, r.2)

/-- Parse the members of an object, positioned at a key (not at `}`). -/
def pFields : Nat → List Char → Option (List (String × Json) × List Char)
  | 0, _ => none
  | fuel + 1, cs =>
    match cs with
    | '"' :: rest => do
      let (key, rest2) ← pStrChars (rest.length + 1) rest
      match skipWs rest2 with
      | ':' :: rest3 => do
        let (v, rest4) ← pJson fuel rest3
        (match skipWs rest4 with
         | ',' :: rest5 =>
           (pFields fuel (skipWs rest5)).map fun r => ((String.mk key, v) :: r.1, r.2)
         | '\x7d' :: rest5 => some ([(String.mk key, v)], rest5)
         | _ => none)
      | _ => none
    | _ => none

/-- Parse the elements of an array, positioned at a value (not at `]`). -/
def pElems : Nat → List Char → Option (List Json × List Char)
  | 0, _ => none
  | fuel + 1, cs => do
    let (v, rest) ← pJson fuel cs
    match skipWs rest with
    | ',' :: rest2 => (pElems fuel rest2).map fun r => (v :: r.1, r.2)
    | ']' :: rest2 => some ([v], rest2)
    | _ => none

end

/-- `serde_json::from_str` to a `Value`: one JSON document, nothing but
whitespace after it. -/
def jsonParse (s : String) : Option Json :=
  match pJson (2 * s.length + 4) s.data with
  | some (v, rest) => if (skipWs rest).isEmpty then some v else none
  | none => none

/-! ## Providers (`src/providers/mod.rs`, `openai.rs`, `anthropic.rs`) -/

/-- Detected AI provider (`AiProvider`). -/
inductive AiProvider where
  | openAI
  | anthropic
  | azure
  | unknown
deriving DecidableEq, Repr

/-- `AiProvider::as_str`. -/
def AiProvider.asStr : AiProvider → String
  | .openAI => "openai"
  | .anthropic => "anthropic"
  | .azure => "azure"
  | .unknown => "unknown"

/-- A message in a conversation (`Message`). -/
structure Message where
  role : String
  content : String
deriving DecidableEq, Repr

/-- Parsed AI request (`AiRequest`). -/
structure AiRequest where
  provider : AiProvider
  model : Option String
  messages : List Message
  maxTokens : Option Nat
  systemPrompt : Option String
deriving DecidableEq, Repr

/-- `AiRequest::all_content`: message contents in order, then the system
prompt when present. -/
def AiRequest.allContent (r : AiRequest) : List String :=
  r.messages.map (·.content) ++
    (match r.systemPrompt with
     | some sys => [sys]
     | none => [])

/-- Least `s` with `n < 2^(24+s)`, by bounded search (fuel 64 covers every
`usize` total, far below the `f32` overflow threshold `2^128`). -/
def f32ShiftGo (n : Nat) : Nat → Nat → Nat
  | 0, s => s
  | fuel + 1, s => if n < 2 ^ (24 + s) then s else f32ShiftGo n fuel (s + 1)

/-- Number of low bits dropped when the integer `n` is converted to `f32`
(a 24-bit significand). -/
def f32Shift (n : Nat) : Nat := f32ShiftGo n 64 0

/-- The exact value of `n as f32` for a `usize` value `n` (IEEE round to
nearest, ties to even): integers below `2^24` are exact; above, the low
`f32Shift n` bits are rounded away, a tie going to the even quotient. -/
def f32RoundNat (n : Nat) : Nat :=
  if n < 2 ^ 24 then n
  else
    let shift := f32Shift n
    let q := n / 2 ^ shift
    let r := n % 2 ^ shift
    let half := 2 ^ shift / 2
    let q2 := if r < half then q
      else if half < r then q + 1
      else if q % 2 = 0 then q else q + 1
    q2 * 2 ^ shift

/-- `AiRequest::estimate_tokens`.  The source computes
`((total_chars + system_chars) as f32 / 4.0).ceil() as u32` over Rust
`len()`, i.e. UTF-8 byte lengths.  The `usize` total is first rounded to
`f32` (`f32RoundNat`); dividing the resulting value by `4.0` only shifts its
exponent and the ceiling of a representable value is representable, so both
are exact and together they give the ceiling division `(v + 3) / 4`; the
final `as u32` cast saturates at `u32::MAX`. -/
def AiRequest.estimateTokens (r : AiRequest) : Nat :=
  let totalChars := (r.messages.map fun m => byteLen m.content + byteLen m.role).sum
  let systemChars :=
    match r.systemPrompt with
    | some s => byteLen s
    | none => 0
  min ((f32RoundNat (totalChars + systemChars) + 3) / 4) (2 ^ 32 - 1)

/-- Request headers as delivered to `detect_provider` (`HashMap<String,
Vec<String>>`, unique keys). -/
def Headers := List (String × List String)

/-- `HashMap::contains_key`. -/
def containsKeyH (h : Headers) (k : String) : Bool := h.any (·.1 = k)

/-- `HashMap::get`. -/
def getH (h : Headers) (k : String) : Option (List String) :=
  (h.find? (·.1 = k)).map (·.2)

/-- `detect_provider`: provider from request path and headers. -/
def detectProvider (path : String) (headers : Headers) : AiProvider :=
  if strHas path "/openai/deployments/" then .azure
  else if strLeads path "/v1/chat/completions" || strLeads path "/v1/completions" ||
      strLeads path "/v1/embeddings" then
    -- could be OpenAI or Anthropic - check headers
    if (containsKeyH headers "anthropic-version" || containsKeyH headers "x-api-key") &&
        (strLeads path "/v1/messages" || strLeads path "/v1/complete") then
      .anthropic
    else if (match getH headers "authorization" with
             | some vs => vs.any fun v => strLeads v "Bearer sk-"
             | none => false) then
      .openAI
    else
      .openAI
  else if strLeads path "/v1/messages" || strLeads path "/v1/complete" then .anthropic
  else .unknown

/-- Decode a JSON string (a serde `String` field). -/
def decodeStr : Json → Option String
  | .str s => some s
  | _ => none

/-- Decode a serde `Option<T>` struct field: absent and `null` give `none`;
any other value must decode or the whole struct fails. -/
def decodeOptField (dec : Json → Option α) (j : Json) (key : String) : Option (Option α) :=
  match j.get key with
  | none => some none
  | some .null => some none
  | some v => (dec v).map some

/-- Decode a serde `u32`: an integer-written number in `u32` range. -/
def decodeU32 : Json → Option Nat
  | .num q => if q.den = 1 && 0 ≤ q.num && q.num < 2 ^ 32 then some q.num.toNat else none
  | _ => none

/-- `OpenAiContentPart`: `type` (required) and optional `text`. -/
structure OpenAiContentPart where
  contentType : String
  text : Option String
deriving DecidableEq, Repr

/-- `OpenAiContent`: a string or an array of typed parts (untagged). -/
inductive OpenAiContent where
  | text (s : String)
  | parts (ps : List OpenAiContentPart)
deriving DecidableEq, Repr

/-- `OpenAiContent::as_text`: only parts of type `text` contribute, joined
by single spaces. -/
def OpenAiContent.asText : OpenAiContent → String
  | .text s => s
  | .parts ps =>
      String.intercalate " " (ps.filterMap fun p =>
        if p.contentType = "text" then p.text else none)

/-- `OpenAiMessage`. -/
structure OpenAiMessage where
  role : String
  content : OpenAiContent
deriving DecidableEq, Repr

/-- `OpenAiChatRequest`: the serde view of an OpenAI request body. -/
structure OpenAiChatRequest where
  model : Option String
  messages : Option (List OpenAiMessage)
  maxTokens : Option Nat
  prompt : Option String
deriving DecidableEq, Repr

/-- serde decode of one content part. -/
def decodeOpenAiContentPart (j : Json) : Option OpenAiContentPart :=
  match j with
  | .obj _ => do
      let ty ← match j.get "type" with
        | some v => decodeStr v
        | none => none
      let tx ← decodeOptField decodeStr j "text"
      some ⟨ty, tx⟩
  | _ => none

/-- serde decode of `OpenAiContent` (untagged: string first, then parts). -/
def decodeOpenAiContent (j : Json) : Option OpenAiContent :=
  match j with
  | .str s => some (.text s)
  | .arr xs => (xs.mapM decodeOpenAiContentPart).map .parts
  | _ => none

/-- serde decode of one message. -/
def decodeOpenAiMessage (j : Json) : Option OpenAiMessage :=
  match j with
  | .obj _ => do
      let role ← match j.get "role" with
        | some v => decodeStr v
        | none => none
      let content ← match j.get "content" with
        | some v => decodeOpenAiContent v
        | none => none
      some ⟨role, content⟩
  | _ => none

/-- serde decode of `OpenAiChatRequest`. -/
def decodeOpenAiChatRequest (j : Json) : Option OpenAiChatRequest :=
  match j with
  | .obj _ => do
      let model ← decodeOptField decodeStr j "model"
      let messages ← decodeOptField
        (fun v => match v with
          | .arr xs => xs.mapM decodeOpenAiMessage
          | _ => none) j "messages"
      let maxTokens ← decodeOptField decodeU32 j "max_tokens"
      let prompt ← decodeOptField decodeStr j "prompt"
      some ⟨model, messages, maxTokens, prompt⟩
  | _ => none

/-- One step of the message loop of `openai::parse_request`: push the
flattened message; a `system` role additionally (re)sets the system prompt. -/
def openaiChatStep (acc : List Message × Option String) (msg : OpenAiMessage) :
    List Message × Option String :=
  let content := msg.content.asText
  (acc.1 ++ [(⟨msg.role, content⟩ : Message)],
   if msg.role = "system" then some content else acc.2)

/-- `openai::parse_request` after JSON decoding: build the canonical
request; each `system` message also (re)sets the system prompt. -/
def openaiFromJson (j : Json) : Option AiRequest := do
  let parsed ← decodeOpenAiChatRequest j
  let init : List Message × Option String := ([], none)
  let chat :=
    match parsed.messages with
    | some msgs => msgs.foldl openaiChatStep init
    | none => init
  let messages :=
    match parsed.prompt with
    | some p => chat.1 ++ [(⟨"user", p⟩ : Message)]
    | none => chat.1
  if messages.isEmpty then none
  else some ⟨.openAI, parsed.model, messages, parsed.maxTokens, chat.2⟩

/-- `openai::parse_request`. -/
def openaiParse (body : String) : Option AiRequest :=
  (jsonParse body).bind openaiFromJson

/-- `AnthropicContentBlock`: `type` (required) and optional `text`. -/
structure AnthropicContentBlock where
  contentType : String
  text : Option String
deriving DecidableEq, Repr

/-- `AnthropicContent` / `AnthropicSystem`: a string or an array of typed
blocks (untagged; the two source enums have identical shape and decoding). -/
inductive AnthropicContent where
  | text (s : String)
  | blocks (bs : List AnthropicContentBlock)
deriving DecidableEq, Repr

/-- `as_text` of `AnthropicContent` / `AnthropicSystem`. -/
def AnthropicContent.asText : AnthropicContent → String
  | .text s => s
  | .blocks bs =>
      String.intercalate " " (bs.filterMap fun b =>
        if b.contentType = "text" then b.text else none)

/-- `AnthropicMessage`. -/
structure AnthropicMessage where
  role : String
  content : AnthropicContent
deriving DecidableEq, Repr

/-- `AnthropicRequest`: the serde view of an Anthropic request body. -/
structure AnthropicRequest where
  model : Option String
  messages : Option (List AnthropicMessage)
  maxTokens : Option Nat
  system : Option AnthropicContent
  prompt : Option String
deriving DecidableEq, Repr

/-- serde decode of one content block. -/
def decodeAnthropicBlock (j : Json) : Option AnthropicContentBlock :=
  match j with
  | .obj _ => do
      let ty ← match j.get "type" with
        | some v => decodeStr v
        | none => none
      let tx ← decodeOptField decodeStr j "text"
      some ⟨ty, tx⟩
  | _ => none

/-- serde decode of `AnthropicContent` (untagged: string first, then blocks). -/
def decodeAnthropicContent (j : Json) : Option AnthropicContent :=
  match j with
  | .str s => some (.text s)
  | .arr xs => (xs.mapM decodeAnthropicBlock).map .blocks
  | _ => none

/-- serde decode of one message. -/
def decodeAnthropicMessage (j : Json) : Option AnthropicMessage :=
  match j with
  | .obj _ => do
      let role ← match j.get "role" with
        | some v => decodeStr v
        | none => none
      let content ← match j.get "content" with
        | some v => decodeAnthropicContent v
        | none => none
      some ⟨role, content⟩
  | _ => none

/-- serde decode of `AnthropicRequest`. -/
def decodeAnthropicRequest (j : Json) : Option AnthropicRequest :=
  match j with
  | .obj _ => do
      let model ← decodeOptField decodeStr j "model"
      let messages ← decodeOptField
        (fun v => match v with
          | .arr xs => xs.mapM decodeAnthropicMessage
          | _ => none) j "messages"
      let maxTokens ← decodeOptField decodeU32 j "max_tokens"
      let system ← decodeOptField decodeAnthropicContent j "system"
      let prompt ← decodeOptField decodeStr j "prompt"
      some ⟨model, messages, maxTokens, system, prompt⟩
  | _ => none

/-- Rust `str::strip_prefix`. -/
def stripLead (s p : String) : Option String :=
  if strLeads s p then some (String.mk (s.data.drop p.data.length)) else none

/-- `anthropic::parse_request` after JSON decoding: messages-API messages,
then legacy `Human:`/`Assistant:` turns extracted from `prompt`, with the
whole prompt as a single user message when no turn was extracted. -/
def anthropicFromJson (j : Json) : Option AiRequest := do
  let parsed ← decodeAnthropicRequest j
  let systemPrompt := parsed.system.map (·.asText)
  let apiMsgs : List Message :=
    match parsed.messages with
    | some msgs => msgs.map fun m => ⟨m.role, m.content.asText⟩
    | none => []
  let messages :=
    match parsed.prompt with
    | some prompt =>
        let fromParts := (prompt.splitOn "\n\n").foldl
          (fun (acc : List Message) part =>
            let pt := part.trim
            match stripLead pt "Human:" with
            | some h =>
                let c := h.trim
                if c.isEmpty then acc else acc ++ [(⟨"user", c⟩ : Message)]
            | none =>
                match stripLead pt "Assistant:" with
                | some a =>
                    let c := a.trim
                    if c.isEmpty then acc else acc ++ [(⟨"assistant", c⟩ : Message)]
                | none => acc) apiMsgs
        if fromParts.isEmpty then [(⟨"user", prompt⟩ : Message)] else fromParts
    | none => apiMsgs
  if messages.isEmpty then none
  else some ⟨.anthropic, parsed.model, messages, parsed.maxTokens, systemPrompt⟩

/-- `anthropic::parse_request`. -/
def anthropicParse (body : String) : Option AiRequest :=
  (jsonParse body).bind anthropicFromJson

/-- `providers::parse_request`: dispatch on the detected provider; Unknown
tries the OpenAI shape first, then the Anthropic shape. -/
def parseRequest (provider : AiProvider) (body : String) : Option AiRequest :=
  match provider with
  | .openAI | .azure => openaiParse body
  | .anthropic => anthropicParse body
  | .unknown => (openaiParse body).orElse fun _ => anthropicParse body

/-! ## JSON-schema validation (`src/providers/schema.rs`)

The three Draft-07 schemas are constants in the source; we embed each as a
direct validity predicate on parsed JSON.  The human-readable error strings
come from the `jsonschema` library; the claims never inspect them, so
invalid results carry a stand-in message (the source prefixes
`Invalid JSON: <serde error>` on parse failures and a pointer-prefixed
library message per schema violation). -/

/-- Schema validation result (`SchemaValidationResult`). -/
structure SchemaValidationResult where
  valid : Bool
  errors : List String
deriving DecidableEq, Repr

/-- A property constrains its value only when the key is present. -/
def propOk (v : Json) (key : String) (check : Json → Bool) : Bool :=
  match v.get key with
  | some x => check x
  | none => true

/-- `{"type":"string"}`. -/
def jIsStr : Json → Bool
  | .str _ => true
  | _ => false

/-- `{"type":"string","minLength":1}`. -/
def jIsStr1 : Json → Bool
  | .str s => s.length ≥ 1
  | _ => false

/-- `{"type":"object"}`. -/
def jIsObj : Json → Bool
  | .obj _ => true
  | _ => false

/-- `{"type":"array"}`. -/
def jIsArr : Json → Bool
  | .arr _ => true
  | _ => false

/-- `{"type":"boolean"}`. -/
def jIsBool : Json → Bool
  | .bool _ => true
  | _ => false

/-- Draft-07 `integer`: a number with zero fractional part. -/
def jIsInt : Json → Bool
  | .num q => q.den = 1
  | _ => false

/-- Integer with a minimum. -/
def jIntMin (lo : ℚ) : Json → Bool
  | .num q => q.den = 1 && lo ≤ q
  | _ => false

/-- Integer within bounds. -/
def jIntRange (lo hi : ℚ) : Json → Bool
  | .num q => q.den = 1 && lo ≤ q && q ≤ hi
  | _ => false

/-- Number within bounds. -/
def jNumRange (lo hi : ℚ) : Json → Bool
  | .num q => lo ≤ q && q ≤ hi
  | _ => false

/-- The `stop` schema: a string, or an array of at most 4 strings. -/
def jStopOk : Json → Bool
  | .str _ => true
  | .arr xs => xs.length ≤ 4 && xs.all jIsStr
  | _ => false

/-- `logit_bias`: an object whose values are all numbers. -/
def jLogitBiasOk : Json → Bool
  | .obj fs => fs.all fun f =>
      match f.2 with
      | .num _ => true
      | _ => false
  | _ => false

/-- A content part of the OpenAI chat schema: object, required `type`
(string), optional `text` (string) and `image_url` (object). -/
def openaiPartOk (j : Json) : Bool :=
  jIsObj j && (j.get "type").isSome && propOk j "type" jIsStr &&
    propOk j "text" jIsStr && propOk j "image_url" jIsObj

/-- `content` of an OpenAI chat message: string, null, or array of parts. -/
def openaiContentOk : Json → Bool
  | .str _ => true
  | .null => true
  | .arr xs => xs.all openaiPartOk
  | _ => false

/-- One message of the OpenAI chat schema. -/
def openaiMessageOk (j : Json) : Bool :=
  jIsObj j && (j.get "role").isSome && (j.get "content").isSome &&
    propOk j "role" (fun r =>
      match r with
      | .str s => s = "system" || s = "user" || s = "assistant" || s = "tool" ||
          s = "function"
      | _ => false) &&
    propOk j "content" openaiContentOk &&
    propOk j "name" jIsStr && propOk j "tool_calls" jIsArr &&
    propOk j "tool_call_id" jIsStr && propOk j "function_call" jIsObj

/-- The OPENAI_CHAT_SCHEMA validity predicate. -/
def openaiChatOk (j : Json) : Bool :=
  jIsObj j && (j.get "model").isSome && (j.get "messages").isSome &&
    propOk j "model" jIsStr1 &&
    propOk j "messages" (fun m =>
      match m with
      | .arr xs => xs.length ≥ 1 && xs.all openaiMessageOk
      | _ => false) &&
    propOk j "max_tokens" (jIntMin 1) &&
    propOk j "temperature" (jNumRange 0 2) &&
    propOk j "top_p" (jNumRange 0 1) &&
    propOk j "n" (jIntMin 1) &&
    propOk j "stream" jIsBool &&
    propOk j "stop" jStopOk &&
    propOk j "presence_penalty" (jNumRange (-2) 2) &&
    propOk j "frequency_penalty" (jNumRange (-2) 2) &&
    propOk j "logit_bias" jLogitBiasOk &&
    propOk j "user" jIsStr &&
    propOk j "tools" jIsArr &&
    propOk j "response_format" jIsObj &&
    propOk j "seed" jIsInt

/-- The OPENAI_COMPLETION_SCHEMA validity predicate. -/
def openaiCompletionOk (j : Json) : Bool :=
  jIsObj j && (j.get "model").isSome && (j.get "prompt").isSome &&
    propOk j "model" jIsStr1 &&
    propOk j "prompt" (fun p =>
      match p with
      | .str _ => true
      | .arr xs => xs.all jIsStr
      | _ => false) &&
    propOk j "max_tokens" (jIntMin 1) &&
    propOk j "temperature" (jNumRange 0 2) &&
    propOk j "top_p" (jNumRange 0 1) &&
    propOk j "n" (jIntMin 1) &&
    propOk j "stream" jIsBool &&
    propOk j "logprobs" (jIntRange 0 5) &&
    propOk j "echo" jIsBool &&
    propOk j "stop" jStopOk &&
    propOk j "presence_penalty" (jNumRange (-2) 2) &&
    propOk j "frequency_penalty" (jNumRange (-2) 2) &&
    propOk j "best_of" (jIntMin 1) &&
    propOk j "logit_bias" jLogitBiasOk &&
    propOk j "user" jIsStr

/-- A content block of the Anthropic schema: object, required `type`
(string), optional `text` (string) and `source` (object). -/
def anthropicBlockOk (j : Json) : Bool :=
  jIsObj j && (j.get "type").isSome && propOk j "type" jIsStr &&
    propOk j "text" jIsStr && propOk j "source" jIsObj

/-- A system block of the Anthropic schema: required `type` and `text`. -/
def anthropicSystemBlockOk (j : Json) : Bool :=
  jIsObj j && (j.get "type").isSome && (j.get "text").isSome &&
    propOk j "type" jIsStr && propOk j "text" jIsStr &&
    propOk j "cache_control" jIsObj

/-- One message of the Anthropic schema. -/
def anthropicMessageOk (j : Json) : Bool :=
  jIsObj j && (j.get "role").isSome && (j.get "content").isSome &&
    propOk j "role" (fun r =>
      match r with
      | .str s => s = "user" || s = "assistant"
      | _ => false) &&
    propOk j "content" (fun c =>
      match c with
      | .str _ => true
      | .arr xs => xs.all anthropicBlockOk
      | _ => false)

/-- The ANTHROPIC_MESSAGES_SCHEMA validity predicate. -/
def anthropicMessagesOk (j : Json) : Bool :=
  jIsObj j && (j.get "model").isSome && (j.get "max_tokens").isSome &&
    (j.get "messages").isSome &&
    propOk j "model" jIsStr1 &&
    propOk j "max_tokens" (jIntMin 1) &&
    propOk j "messages" (fun m =>
      match m with
      | .arr xs => xs.length ≥ 1 && xs.all anthropicMessageOk
      | _ => false) &&
    propOk j "system" (fun s =>
      match s with
      | .str _ => true
      | .arr xs => xs.all anthropicSystemBlockOk
      | _ => false) &&
    propOk j "temperature" (jNumRange 0 1) &&
    propOk j "top_p" (jNumRange 0 1) &&
    propOk j "top_k" (jIntMin 0) &&
    propOk j "stream" jIsBool &&
    propOk j "stop_sequences" (fun s =>
      match s with
      | .arr xs => xs.all jIsStr
      | _ => false) &&
    propOk j "metadata" (fun m =>
      jIsObj m && propOk m "user_id" jIsStr) &&
    propOk j "tools" jIsArr &&
    propOk j "tool_choice" jIsObj

/-- `validate_openai_chat`. -/
def validateOpenaiChat (body : String) : SchemaValidationResult :=
  match jsonParse body with
  | none => ⟨false, ["Invalid JSON"]⟩
  | some v => if openaiChatOk v then ⟨true, []⟩ else ⟨false, ["schema violation"]⟩

/-- `validate_openai_completion`. -/
def validateOpenaiCompletion (body : String) : SchemaValidationResult :=
  match jsonParse body with
  | none => ⟨false, ["Invalid JSON"]⟩
  | some v => if openaiCompletionOk v then ⟨true, []⟩ else ⟨false, ["schema violation"]⟩

/-- `validate_anthropic_messages`. -/
def validateAnthropicMessages (body : String) : SchemaValidationResult :=
  match jsonParse body with
  | none => ⟨false, ["Invalid JSON"]⟩
  | some v => if anthropicMessagesOk v then ⟨true, []⟩ else ⟨false, ["schema violation"]⟩

/-- `schema::validate_request`: auto-detects the request flavor. -/
def validateRequest (provider : AiProvider) (body : String) : SchemaValidationResult :=
  match jsonParse body with
  | none => ⟨false, ["Invalid JSON"]⟩
  | some v =>
    match provider with
    | .openAI | .azure =>
        if (v.get "messages").isSome then validateOpenaiChat body
        else if (v.get "prompt").isSome then validateOpenaiCompletion body
        else ⟨false, ["Missing required field: messages or prompt"]⟩
    | .anthropic => validateAnthropicMessages body
    | .unknown =>
        if (v.get "messages").isSome then
          if (v.get "max_tokens").isSome &&
              !(match v.get "model" with
                | some (.str s) => strLeads s "gpt"
                | _ => false) then
            validateAnthropicMessages body
          else validateOpenaiChat body
        else if (v.get "prompt").isSome then validateOpenaiCompletion body
        else ⟨false, ["Unable to determine request format"]⟩

/-! ## Rate limiter (`src/ratelimit.rs`)

`Instant` is modelled as a `Nat` of elapsed whole seconds supplied to each
call; `Duration` as a `Nat` of seconds (the default window is 60s). -/

/-- `RateLimitConfig`. -/
structure RateLimitConfig where
  requestsPerMinute : Nat
  tokensPerMinute : Nat
  windowDuration : Nat
deriving DecidableEq, Repr

/-- `RateLimitConfig::is_enabled`. -/
def RateLimitConfig.isEnabled (c : RateLimitConfig) : Bool :=
  c.requestsPerMinute > 0 || c.tokensPerMinute > 0

/-- `ExceededLimit`. -/
inductive ExceededLimit where
  | requests
  | tokens
deriving DecidableEq, Repr

/-- `RateLimitResult`. -/
structure RateLimitResult where
  allowed : Bool
  requestCount : Nat
  requestLimit : Nat
  tokenCount : Nat
  tokenLimit : Nat
  resetSeconds : Nat
  exceededLimit : Option ExceededLimit
deriving DecidableEq, Repr

/-- `WindowEntry`. -/
structure WindowEntry where
  windowStart : Nat
  requestCount : Nat
  tokenCount : Nat
deriving DecidableEq, Repr

/-- `RateLimiter`: configuration plus the per-client window map. -/
structure RateLimiter where
  config : RateLimitConfig
  state : List (String × WindowEntry)
deriving DecidableEq, Repr

/-- Insert-or-replace in the per-client map. -/
def setEntry (st : List (String × WindowEntry)) (k : String) (e : WindowEntry) :
    List (String × WindowEntry) :=
  match st with
  | [] => [(k, e)]
  | (k2, e2) :: rest => if k2 = k then (k, e) :: rest else (k2, e2) :: setEntry rest k e

/-- `RateLimiter::check_and_record` at time `now`: admit or deny one request
of `estimatedTokens` for `clientId`, updating the window map. -/
def checkAndRecord (rl : RateLimiter) (clientId : String) (estimatedTokens : Nat)
    (now : Nat) : RateLimitResult × RateLimiter :=
  if !rl.config.isEnabled then (⟨true, 0, 0, 0, 0, 0, none⟩, rl)
  else
    -- entry(client_id).or_insert_with(WindowEntry::new)
    let entry0 :=
      match rl.state.find? (·.1 = clientId) with
      | some p => p.2
      | none => (⟨now, 0, 0⟩ : WindowEntry)
    -- reset window if expired
    let entry := if now - entry0.windowStart ≥ rl.config.windowDuration then
        (⟨now, 0, 0⟩ : WindowEntry)
      else entry0
    let elapsed := now - entry.windowStart
    let resetSeconds := if elapsed ≥ rl.config.windowDuration then 0
      else rl.config.windowDuration - elapsed
    if rl.config.requestsPerMinute > 0 &&
        entry.requestCount ≥ rl.config.requestsPerMinute then
      (⟨false, entry.requestCount, rl.config.requestsPerMinute, entry.tokenCount,
          rl.config.tokensPerMinute, resetSeconds, some .requests⟩,
        ⟨rl.config, setEntry rl.state clientId entry⟩)
    else if rl.config.tokensPerMinute > 0 &&
        entry.tokenCount + estimatedTokens > rl.config.tokensPerMinute then
      (⟨false, entry.requestCount, rl.config.requestsPerMinute, entry.tokenCount,
          rl.config.tokensPerMinute, resetSeconds, some .tokens⟩,
        ⟨rl.config, setEntry rl.state clientId entry⟩)
    else
      let entry2 : WindowEntry :=
        ⟨entry.windowStart, entry.requestCount + 1, entry.tokenCount + estimatedTokens⟩
      (⟨true, entry2.requestCount, rl.config.requestsPerMinute, entry2.tokenCount,
          rl.config.tokensPerMinute, resetSeconds, none⟩,
        ⟨rl.config, setEntry rl.state clientId entry2⟩)

/-! ## Agent configuration and verdict (`src/lib.rs`, protocol types)

`AgentResponse`, `HeaderOp::Set` and `AuditMetadata` belong to the
out-of-scope protocol crate; the record below is modelled from the spec:
a verdict carries an optional block status and message, request- and
response-header Set mutations, and an audit bundle of tags and reason
codes. -/

/-- PII action (`PiiAction`). -/
inductive PiiAction where
  | block
  | redact
  | log
deriving DecidableEq, Repr

/-- Agent configuration (`AiGatewayConfig`). -/
structure AiGatewayConfig where
  promptInjectionEnabled : Bool
  piiDetectionEnabled : Bool
  piiAction : PiiAction
  jailbreakDetectionEnabled : Bool
  schemaValidationEnabled : Bool
  maxTokensPerRequest : Option Nat
  addCostHeaders : Bool
  allowedModels : List String
  blockMode : Bool
  failOpen : Bool
  rateLimitRequests : Nat
  rateLimitTokens : Nat
deriving DecidableEq, Repr

/-- `AiGatewayConfig::default`. -/
def defaultConfig : AiGatewayConfig :=
  ⟨true, true, .log, true, false, none, true, [], true, false, 0, 0⟩

/-- A Set header mutation (`HeaderOp::Set`). -/
structure HeaderKV where
  name : String
  value : String
deriving DecidableEq, Repr

/-- Modelled from the spec: the detection-verdict record of the protocol
crate — optional block status/message, header mutations, audit tags and
reason codes. -/
structure AgentResponse where
  blockStatus : Option Nat
  blockBody : Option String
  requestHeaders : List HeaderKV
  responseHeaders : List HeaderKV
  tags : List String
  reasonCodes : List String
deriving DecidableEq, Repr

/-- `AgentResponse::default_allow`. -/
def defaultAllow : AgentResponse := ⟨none, none, [], [], [], []⟩

/-- `AgentResponse::block`. -/
def blockResp (status : Nat) (body : Option String) : AgentResponse :=
  ⟨some status, body, [], [], [], []⟩

/-- `add_request_header` with a Set operation. -/
def AgentResponse.addRequestHeader (r : AgentResponse) (h : HeaderKV) : AgentResponse :=
  { r with requestHeaders := r.requestHeaders ++ [h] }

/-- `add_response_header` with a Set operation. -/
def AgentResponse.addResponseHeader (r : AgentResponse) (h : HeaderKV) : AgentResponse :=
  { r with responseHeaders := r.responseHeaders ++ [h] }

/-- `with_audit`. -/
def AgentResponse.withAudit (r : AgentResponse) (tags reasonCodes : List String) :
    AgentResponse :=
  { r with tags := tags, reasonCodes := reasonCodes }

/-- `estimate_cost`: USD per 1k tokens by (provider, model substring), match
arms in source order; every unmatched case falls to the 0.01 default. -/
def estimateCost (provider : AiProvider) (model : Option String) (tokens : Nat) : ℚ :=
  let costPer1k : ℚ :=
    match provider, model with
    | .openAI, some m =>
        if strHas m "gpt-4o" then 5 / 1000
        else if strHas m "gpt-4-turbo" then 1 / 100
        else if strHas m "gpt-4" then 3 / 100
        else if strHas m "gpt-3.5" then 5 / 10000
        else 1 / 100
    | .anthropic, some m =>
        if strHas m "opus" then 15 / 1000
        else if strHas m "sonnet" then 3 / 1000
        else if strHas m "haiku" then 25 / 100000
        else 1 / 100
    | .azure, _ => 1 / 100
    | _, _ => 1 / 100
  (tokens : ℚ) / 1000 * costPer1k

/-- `format!("{:.6}", cost)` for the nonnegative costs produced above,
rounding to six decimals (`f64` formatting can differ in the final digit;
no claim inspects the digits). -/
def fmt6 (q : ℚ) : String :=
  let n := (q * 1000000 + 1 / 2).floor.toNat
  let ipart := n / 1000000
  let fpart := n % 1000000
  let fs := toString fpart
  toString ipart ++ "." ++ String.mk (List.replicate (6 - fs.length) '0') ++ fs

/-- UTF-8 validation and decoding, fuel-indexed (each step consumes at
least one byte, so fuel exceeding the byte count never runs out). -/
def utf8DecodeGo : Nat → List Nat → Option (List Char)
  | 0, _ => none
  | _ + 1, [] => some []
  | fuel + 1, b :: rest =>
    if b < 0x80 then (utf8DecodeGo fuel rest).map (Char.ofNat b :: ·)
    else if b < 0xC2 then none
    else if b < 0xE0 then
      match rest with
      | b2 :: rest2 =>
        if 0x80 ≤ b2 && b2 < 0xC0 then
          (utf8DecodeGo fuel rest2).map (Char.ofNat ((b - 0xC0) * 64 + (b2 - 0x80)) :: ·)
        else none
      | _ => none
    else if b < 0xF0 then
      match rest with
      | b2 :: b3 :: rest3 =>
        if 0x80 ≤ b2 && b2 < 0xC0 && 0x80 ≤ b3 && b3 < 0xC0 then
          let code := (b - 0xE0) * 4096 + (b2 - 0x80) * 64 + (b3 - 0x80)
          if code < 0x800 || (0xD800 ≤ code && code ≤ 0xDFFF) then none
          else (utf8DecodeGo fuel rest3).map (Char.ofNat code :: ·)
        else none
      | _ => none
    else if b < 0xF5 then
      match rest with
      | b2 :: b3 :: b4 :: rest4 =>
        if 0x80 ≤ b2 && b2 < 0xC0 && 0x80 ≤ b3 && b3 < 0xC0 && 0x80 ≤ b4 && b4 < 0xC0 then
          let code := (b - 0xF0) * 262144 + (b2 - 0x80) * 4096 + (b3 - 0x80) * 64 +
            (b4 - 0x80)
          if code < 0x10000 || code > 0x10FFFF then none
          else (utf8DecodeGo fuel rest4).map (Char.ofNat code :: ·)
        else none
      | _ => none
    else none

/-- UTF-8 validation and decoding of a byte sequence
(`String::from_utf8`): rejects stray or missing continuation bytes,
overlong encodings, surrogates and values beyond U+10FFFF. -/
def utf8Decode (l : List Nat) : Option (List Char) :=
  utf8DecodeGo (l.length + 1) l

/-! ## Request pipeline (`src/lib.rs`: `check_request`, `process_body`) -/

/-- The model-allowlist condition of `check_request`: a nonempty allowlist,
a model present, and no entry matching by containment in either direction. -/
def modelNotAllowedB (cfg : AiGatewayConfig) (request : AiRequest) : Bool :=
  !cfg.allowedModels.isEmpty &&
    (match request.model with
     | some m => !(cfg.allowedModels.any fun allowed => strHas m allowed || strHas allowed m)
     | none => false)

/-- The token-ceiling condition of `check_request`: both a configured ceiling
and a requested `max_tokens`, with the request exceeding the ceiling. -/
def tokenLimitHitB (cfg : AiGatewayConfig) (request : AiRequest) : Bool :=
  match cfg.maxTokensPerRequest, request.maxTokens with
  | some maxT, some req => req > maxT
  | _, _ => false

/-- The PII collection of `check_request`: `detect_types` extended over all
content, sorted by discriminant, deduplicated. -/
def collectPiiTypes (contents : List String) : List PiiType :=
  dedupAdj (sortByOrd (contents.flatMap piiDetectTypes))

/-- The annotation phase of `check_request`: the provider / model /
schema-valid / tokens-estimated / cost request headers and the audit tags
accumulated alongside them.  (The allowlist and token-ceiling checks that the
source interleaves here mutate only `blocked` / `block_reason` /
`reason_codes`, never the response, so they are factored out as
`modelNotAllowedB` / `tokenLimitHitB`.) -/
def annotationPhase (cfg : AiGatewayConfig) (request : AiRequest) (provider : AiProvider)
    (body : String) : AgentResponse × List String :=
  let response1 := defaultAllow.addRequestHeader ⟨"X-AI-Gateway-Provider", provider.asStr⟩
  let tags1 := ["ai-gateway", "provider:" ++ provider.asStr]
  let response2 :=
    match request.model with
    | some m => response1.addRequestHeader ⟨"X-AI-Gateway-Model", m⟩
    | none => response1
  let tags2 :=
    match request.model with
    | some m => tags1 ++ ["model:" ++ m]
    | none => tags1
  let response3 :=
    if cfg.schemaValidationEnabled then
      response2.addRequestHeader
        ⟨"X-AI-Gateway-Schema-Valid", if (validateRequest provider body).valid
          then "true" else "false"⟩
    else response2
  let tags3 :=
    if cfg.schemaValidationEnabled && (validateRequest provider body).valid then
      tags2 ++ ["schema-valid"]
    else tags2
  let response4 := response3.addRequestHeader
    ⟨"X-AI-Gateway-Tokens-Estimated", toString request.estimateTokens⟩
  let response5 :=
    if cfg.addCostHeaders then
      response4.addRequestHeader
        ⟨"X-AI-Gateway-Cost-Estimated", fmt6 (estimateCost provider request.model
          request.estimateTokens)⟩
    else response4
  (response5, tags3)

/-- The rate-limit response headers of `check_request`: the request-cap pair
and token-cap pair when the respective caps are configured, then the reset
header. -/
def rateLimitHeaders (cfg : AiGatewayConfig) (response : AgentResponse)
    (rateResult : RateLimitResult) : AgentResponse :=
  let responseA :=
    if cfg.rateLimitRequests > 0 then
      (response.addResponseHeader
          ⟨"X-RateLimit-Limit-Requests", toString rateResult.requestLimit⟩).addResponseHeader
        ⟨"X-RateLimit-Remaining-Requests",
          toString (rateResult.requestLimit - rateResult.requestCount)⟩
    else response
  let responseB :=
    if cfg.rateLimitTokens > 0 then
      (responseA.addResponseHeader
          ⟨"X-RateLimit-Limit-Tokens", toString rateResult.tokenLimit⟩).addResponseHeader
        ⟨"X-RateLimit-Remaining-Tokens",
          toString (rateResult.tokenLimit - rateResult.tokenCount)⟩
    else responseA
  responseB.addResponseHeader ⟨"X-RateLimit-Reset", toString rateResult.resetSeconds⟩

/-- The early 429 return of `check_request`: a fresh block response carrying
only the four rate-limit denial headers and the audit accumulated so far. -/
def rateDenyResponse (rateResult : RateLimitResult) (tags codes : List String) :
    AgentResponse :=
  (((((blockResp 429 (some "Too Many Requests")).addResponseHeader
      ⟨"X-RateLimit-Limit-Requests", toString rateResult.requestLimit⟩).addResponseHeader
      ⟨"X-RateLimit-Remaining-Requests", "0"⟩).addResponseHeader
      ⟨"X-RateLimit-Reset", toString rateResult.resetSeconds⟩).addResponseHeader
      ⟨"Retry-After", toString rateResult.resetSeconds⟩).withAudit tags codes

/-- The final commit of `check_request`: a pending block becomes a 403 with
the blocked headers and tag; otherwise the annotated allow response stands. -/
def commitVerdict (response6 : AgentResponse) (tags6 codes5 : List String)
    (blocked5 : Bool) (reason5 : String) : AgentResponse :=
  if blocked5 then
    ((blockResp 403 (some "Forbidden")).addResponseHeader
        ⟨"X-AI-Gateway-Blocked", "true"⟩).addResponseHeader
        ⟨"X-AI-Gateway-Blocked-Reason", reason5⟩
      |>.withAudit (tags6 ++ ["blocked"]) codes5
  else
    response6.withAudit tags6 codes5

/-- The detector phase and final commit of `check_request`: prompt-injection
and jailbreak (each skipped entirely once a pending block exists), PII
(always annotating, and overwriting the block reason when it blocks), then
the 403 commit of a pending block.  `blocked2` / `reason2` / `codes2` carry
the pending verdict of the allowlist and token-ceiling checks. -/
def detectAndCommit (cfg : AiGatewayConfig) (request : AiRequest)
    (response : AgentResponse) (tags3 codes2 : List String) (blocked2 : Bool)
    (reason2 : String) : AgentResponse :=
  let allContent := request.allContent
  let inj :=
    if cfg.promptInjectionEnabled && !blocked2 then promptInjectionDetectAny allContent
    else none
  let blocked3 :=
    match inj with
    | some _ => blocked2 || cfg.blockMode
    | none => blocked2
  let reason3 :=
    match inj with
    | some det => if cfg.blockMode then det else reason2
    | none => reason2
  let tags4 := tags3 ++ (match inj with
    | some _ => ["detected:prompt-injection"]
    | none => [])
  let codes3 := codes2 ++ (match inj with
    | some _ => ["PROMPT_INJECTION"]
    | none => [])
  let jb :=
    if cfg.jailbreakDetectionEnabled && !blocked3 then jailbreakDetectAny allContent
    else none
  let blocked4 :=
    match jb with
    | some _ => blocked3 || cfg.blockMode
    | none => blocked3
  let reason4 :=
    match jb with
    | some det => if cfg.blockMode then det else reason3
    | none => reason3
  let tags5 := tags4 ++ (match jb with
    | some _ => ["detected:jailbreak"]
    | none => [])
  let codes4 := codes3 ++ (match jb with
    | some _ => ["JAILBREAK_ATTEMPT"]
    | none => [])
  let piiTypes := if cfg.piiDetectionEnabled then collectPiiTypes allContent else []
  let piiHit := cfg.piiDetectionEnabled && !piiTypes.isEmpty
  let piiStr := String.intercalate "," (piiTypes.map PiiType.asStr)
  let response6 :=
    if piiHit then response.addRequestHeader ⟨"X-AI-Gateway-PII-Detected", piiStr⟩
    else response
  let tags6 := tags5 ++ (if piiHit then ["pii:" ++ piiStr] else [])
  let codes5 := codes4 ++ (if piiHit then ["PII_DETECTED"] else [])
  let piiBlocks := piiHit && cfg.piiAction = PiiAction.block && cfg.blockMode
  let blocked5 := if piiBlocks then true else blocked4
  let reason5 := if piiBlocks then "pii-detected:" ++ piiStr else reason4
  commitVerdict response6 tags6 codes5 blocked5 reason5

/-- `check_request`: ordered policy checks over a parsed request, returning
the verdict and the updated rate limiter. -/
def checkRequest (cfg : AiGatewayConfig) (request : AiRequest) (provider : AiProvider)
    (body : String) (clientIp : String) (lim : RateLimiter) (now : Nat) :
    AgentResponse × RateLimiter :=
  let ann := annotationPhase cfg request provider body
  -- model allowlist, then token ceiling: the latter overwrites blocked/reason
  let blocked1 := modelNotAllowedB cfg request
  let reason1 := if blocked1 then "model-not-allowed" else ""
  let codes1 : List String := if blocked1 then ["MODEL_NOT_ALLOWED"] else []
  let tokHit := tokenLimitHitB cfg request
  let blocked2 := blocked1 || tokHit
  let reason2 := if tokHit then "token-limit-exceeded" else reason1
  let codes2 := codes1 ++ (if tokHit then ["TOKEN_LIMIT_EXCEEDED"] else [])
  if cfg.rateLimitRequests > 0 || cfg.rateLimitTokens > 0 then
    let rr := checkAndRecord lim clientIp request.estimateTokens now
    if !rr.1.allowed then
      (rateDenyResponse rr.1 (ann.2 ++ ["rate-limited"]) (codes2 ++ ["RATE_LIMIT_EXCEEDED"]),
        rr.2)
    else
      (detectAndCommit cfg request (rateLimitHeaders cfg ann.1 rr.1) ann.2 codes2 blocked2
        reason2, rr.2)
  else
    (detectAndCommit cfg request ann.1 ann.2 codes2 blocked2 reason2, lim)

/-- `process_body`: decode UTF-8, consult the schema validator, parse the
canonical request and run `check_request`. -/
def processBody (cfg : AiGatewayConfig) (provider : AiProvider) (bodyBytes : List Nat)
    (clientIp : String) (lim : RateLimiter) (now : Nat) : AgentResponse × RateLimiter :=
  match utf8Decode bodyBytes with
  | none =>
      if cfg.failOpen then
        (defaultAllow.withAudit ["ai-gateway", "error"] ["INVALID_UTF8"], lim)
      else
        ((blockResp 400 (some "Invalid request body")).withAudit
          ["ai-gateway", "blocked"] ["INVALID_UTF8"], lim)
  | some chars =>
      let bodyStr := String.mk chars
      let validation := validateRequest provider bodyStr
      if cfg.schemaValidationEnabled && !validation.valid && cfg.blockMode then
        ((((blockResp 400 (some "Schema validation failed")).addResponseHeader
              ⟨"X-AI-Gateway-Schema-Valid", "false"⟩).addResponseHeader
              ⟨"X-AI-Gateway-Schema-Errors", String.intercalate "; " validation.errors⟩)
            |>.withAudit ["ai-gateway", "blocked", "schema-invalid"]
              ["SCHEMA_VALIDATION_FAILED"], lim)
      else
        match parseRequest provider bodyStr with
        | none => (defaultAllow.withAudit ["ai-gateway"] [], lim)
        | some aiRequest => checkRequest cfg aiRequest provider bodyStr clientIp lim now

/-! ## Specification-side definitions

These follow the words of the spec (for refinement comparison with the
source-derived definitions above) or package executions for the theorems. -/

/-- The byte total that `estimate_tokens` divides:
`sum(len(role)+len(content)) + len(system_prompt)` over UTF-8 byte lengths. -/
def contentByteTotal (r : AiRequest) : Nat :=
  (r.messages.map fun m => byteLen m.content + byteLen m.role).sum +
    (match r.systemPrompt with
     | some s => byteLen s
     | none => 0)

/-- The same total computed over CHARACTER lengths, as the claim words it. -/
def contentCharTotal (r : AiRequest) : Nat :=
  (r.messages.map fun m => m.content.length + m.role.length).sum +
    (match r.systemPrompt with
     | some s => s.length
     | none => 0)

/-- The token estimate as the claim words it: the ceiling of the quarter of
the total computed over CHARACTER lengths. -/
def charTokenEstimateSpec (r : AiRequest) : ℤ :=
  ⌈((contentCharTotal r : ℚ) / 4)⌉

/-- The claim's reading of `redact`: the literal non-matching spans of the
input concatenated with the per-type placeholders of the matches, walked in
order. -/
def interleaveSpans (t : List Char) : List PiiMatch → Nat → List Char
  | [], prev => t.drop prev
  | m :: ms, prev =>
      (t.drop prev).take (m.start - prev) ++ m.piiType.redaction.data ++
        interleaveSpans t ms m.endPos

/-- The committed 403 block reason as the amended claim describes it: a PII
block overwrites any pending reason; the token-ceiling reason overwrites the
allowlist reason; the injection and jailbreak labels apply only when no
earlier check set a pending block (evaluated under block mode). -/
def committedReasonSpec (cfg : AiGatewayConfig) (request : AiRequest) : Option String :=
  let contents := request.allContent
  let mdl := modelNotAllowedB cfg request
  let tok := tokenLimitHitB cfg request
  let inj := cfg.promptInjectionEnabled && !(mdl || tok) &&
    (promptInjectionDetectAny contents).isSome
  let jb := cfg.jailbreakDetectionEnabled && !(mdl || tok || inj) &&
    (jailbreakDetectAny contents).isSome
  let piiTypes := collectPiiTypes contents
  let pii := cfg.piiDetectionEnabled && !piiTypes.isEmpty &&
    cfg.piiAction = PiiAction.block
  if pii then some ("pii-detected:" ++ String.intercalate "," (piiTypes.map PiiType.asStr))
  else if tok then some "token-limit-exceeded"
  else if mdl then some "model-not-allowed"
  else if inj then some "prompt-injection"
  else if jb then some "jailbreak-attempt"
  else none

/-- Run a sequence of `(now, estimated_tokens)` calls through the limiter for
one client, collecting the per-call results. -/
def runCalls (clientId : String) : List (Nat × Nat) → RateLimiter →
    List RateLimitResult × RateLimiter
  | [], rl => ([], rl)
  | (now, est) :: rest, rl =>
      let r := checkAndRecord rl clientId est now
      let tailOut := runCalls clientId rest r.2
      (r.1 :: tailOut.1, tailOut.2)

/-- The admitted calls of a run: the inputs whose results were allowed. -/
def admittedOf (calls : List (Nat × Nat)) (results : List RateLimitResult) :
    List (Nat × Nat) :=
  ((calls.zip results).filter fun p => p.2.allowed).map (·.1)

/-- A configuration with all detectors disabled, a model allowlist, and a
token ceiling, for concrete evaluations. -/
def allowlistCeilingConfig : AiGatewayConfig :=
  { defaultConfig with
      promptInjectionEnabled := false
      piiDetectionEnabled := false
      jailbreakDetectionEnabled := false
      allowedModels := ["claude"]
      maxTokensPerRequest := some 50 }

/-- A small request asking for 1000 output tokens, for concrete evaluations. -/
def helloRequest : AiRequest :=
  ⟨.openAI, some "gpt-4", [⟨"user", "Hello"⟩], some 1000, none⟩

/-- Adjacent matches in a detection list are pairwise non-overlapping
(each match ends at or before the next one starts). -/
def disjointAdj : List PiiMatch → Bool
  | a :: b :: ms => decide (a.endPos ≤ b.start) && disjointAdj (b :: ms)
  | _ => true


/-! ## Helper lemmas -/

theorem ceilDiv4 (a : Nat) : ⌈((a : ℚ)) / 4⌉ = (((a + 3) / 4 : Nat) : ℤ) := by
  have h := Nat.div_add_mod (a + 3) 4
  have h2 : (a + 3) % 4 < 4 := Nat.mod_lt _ (by norm_num)
  set n := (a + 3) / 4 with hn
  have hub : n * 4 < a + 4 := by omega
  have hlb : a ≤ n * 4 := by omega
  rw [Int.ceil_eq_iff]
  refine ⟨?_, ?_⟩
  · push_cast
    rw [lt_div_iff₀ (by norm_num : (0:ℚ) < 4), sub_mul, sub_lt_iff_lt_add]
    norm_num
    exact_mod_cast hub
  · push_cast
    rw [div_le_iff₀ (by norm_num : (0:ℚ) < 4)]
    exact_mod_cast hlb

theorem charSpecEq (r : AiRequest) :
    charTokenEstimateSpec r = (((contentCharTotal r + 3) / 4 : Nat) : ℤ) := by
  rw [charTokenEstimateSpec, ceilDiv4]

theorem f32RoundNat_small (n : Nat) (h : n < 2 ^ 24) : f32RoundNat n = n := by
  unfold f32RoundNat
  rw [if_pos h]

theorem twoLeads (l p q : List Char) (hlen : q.length ≤ p.length)
    (hp : leadsWith l p = true) (hq : leadsWith l q = true) : leadsWith p q = true := by
  induction l generalizing p q with
  | nil =>
    cases p with
    | nil =>
      cases q with
      | nil => rfl
      | cons d q2 => simp at hlen
    | cons c p2 => simp [leadsWith] at hp
  | cons a l2 ih =>
    cases p with
    | nil =>
      cases q with
      | nil => rfl
      | cons d q2 => simp at hlen
    | cons c p2 =>
      cases q with
      | nil => rfl
      | cons d q2 =>
        simp only [leadsWith, Bool.and_eq_true, decide_eq_true_eq] at hp hq ⊢
        obtain ⟨hac, hp2⟩ := hp
        obtain ⟨had, hq2⟩ := hq
        subst hac
        subst had
        exact ⟨rfl, ih p2 q2 (by simpa using hlen) hp2 hq2⟩

theorem chatFoldInv (msgs : List OpenAiMessage) (accL : List Message) (accS : Option String)
    (hinv : accS =
      ((accL.filter fun m => decide (m.role = "system")).map (·.content)).getLast?)
    (hmem : ∀ s, accS = some s → s ∈ accL.map (·.content)) :
    (msgs.foldl openaiChatStep (accL, accS)).2 =
      (((msgs.foldl openaiChatStep (accL, accS)).1.filter
        fun m => decide (m.role = "system")).map (·.content)).getLast? ∧
    ∀ s, (msgs.foldl openaiChatStep (accL, accS)).2 = some s →
      s ∈ (msgs.foldl openaiChatStep (accL, accS)).1.map (·.content) := by
  induction msgs generalizing accL accS with
  | nil => exact ⟨hinv, hmem⟩
  | cons msg rest ih =>
    simp only [List.foldl_cons]
    rcases hstep : openaiChatStep (accL, accS) msg with ⟨newL, newS⟩
    by_cases hrole : msg.role = "system"
    · have hL : newL = accL ++ [⟨msg.role, msg.content.asText⟩] := by
        simp [openaiChatStep] at hstep
        exact hstep.1.symm
      have hS : newS = some msg.content.asText := by
        simp [openaiChatStep, hrole] at hstep
        exact hstep.2.symm
      apply ih
      · subst hL hS
        simp [List.filter_append, hrole, List.getLast?_concat]
      · subst hL hS
        intro s hs
        simp at hs
        simp [hs]
    · have hL : newL = accL ++ [⟨msg.role, msg.content.asText⟩] := by
        simp [openaiChatStep] at hstep
        exact hstep.1.symm
      have hS : newS = accS := by
        simp [openaiChatStep, hrole] at hstep
        exact hstep.2.symm
      apply ih
      · subst hL hS
        simp [List.filter_append, hrole, hinv]
      · subst hL hS
        intro s hs
        have := hmem s hs
        simp [this]

theorem blockStatus_addRequestHeader (r : AgentResponse) (h : HeaderKV) :
    (r.addRequestHeader h).blockStatus = r.blockStatus := rfl

theorem blockStatus_addResponseHeader (r : AgentResponse) (h : HeaderKV) :
    (r.addResponseHeader h).blockStatus = r.blockStatus := rfl

theorem blockStatus_withAudit (r : AgentResponse) (t c : List String) :
    (r.withAudit t c).blockStatus = r.blockStatus := rfl

theorem annotationPhase_blockStatus (cfg : AiGatewayConfig) (request : AiRequest)
    (provider : AiProvider) (body : String) :
    (annotationPhase cfg request provider body).1.blockStatus = none := by
  unfold annotationPhase
  dsimp only
  split <;> split <;>
    simp [blockStatus_addRequestHeader, defaultAllow] <;>
    split <;> simp [blockStatus_addRequestHeader, defaultAllow]

theorem rateLimitHeaders_blockStatus (cfg : AiGatewayConfig) (response : AgentResponse)
    (rateResult : RateLimitResult) :
    (rateLimitHeaders cfg response rateResult).blockStatus = response.blockStatus := by
  unfold rateLimitHeaders
  dsimp only
  split <;> split <;> rfl

theorem commitVerdict_status (r : AgentResponse) (t c : List String) (b : Bool)
    (rs : String) :
    (commitVerdict r t c b rs).blockStatus = some 403 ∨
    (commitVerdict r t c b rs).blockStatus = r.blockStatus := by
  unfold commitVerdict
  cases b
  · right; rfl
  · left; rfl

theorem detectAndCommit_status (cfg : AiGatewayConfig) (request : AiRequest)
    (response : AgentResponse) (tags3 codes2 : List String) (blocked2 : Bool)
    (reason2 : String) :
    (detectAndCommit cfg request response tags3 codes2 blocked2 reason2).blockStatus =
      some 403 ∨
    (detectAndCommit cfg request response tags3 codes2 blocked2 reason2).blockStatus =
      response.blockStatus := by
  unfold detectAndCommit
  dsimp only
  refine Or.imp (fun h => h) (fun hs => ?_) (commitVerdict_status _ _ _ _ _)
  rw [hs]
  split <;> first | rfl | (split <;> rfl)

theorem injAnyLabel (texts : List String) (s : String)
    (h : promptInjectionDetectAny texts = some s) : s = "prompt-injection" := by
  induction texts with
  | nil => cases h
  | cons t ts ih =>
    simp only [promptInjectionDetectAny, List.foldr_cons] at h
    unfold promptInjectionDetect at h
    split at h
    · simp [Option.orElse] at h
      exact h.symm
    · simp only [Option.orElse, Option.none_orElse] at h
      exact ih (by simpa [promptInjectionDetectAny] using h)

theorem jbAnyLabel (texts : List String) (s : String)
    (h : jailbreakDetectAny texts = some s) : s = "jailbreak-attempt" := by
  induction texts with
  | nil => cases h
  | cons t ts ih =>
    simp only [jailbreakDetectAny, List.foldr_cons] at h
    unfold jailbreakDetect at h
    split at h
    · simp [Option.orElse] at h
      exact h.symm
    · simp only [Option.orElse, Option.none_orElse] at h
      exact ih (by simpa [jailbreakDetectAny] using h)

set_option maxHeartbeats 2000000 in
theorem detectAndCommit_spec (cfg : AiGatewayConfig) (request : AiRequest)
    (response : AgentResponse) (tags3 codes2 : List String)
    (hbm : cfg.blockMode = true) (hresp : response.blockStatus = none)
    (h403 : (detectAndCommit cfg request response tags3 codes2
      (modelNotAllowedB cfg request || tokenLimitHitB cfg request)
      (if tokenLimitHitB cfg request then "token-limit-exceeded"
       else if modelNotAllowedB cfg request then "model-not-allowed" else "")).blockStatus =
      some 403) :
    ∃ rs, committedReasonSpec cfg request = some rs ∧
      (detectAndCommit cfg request response tags3 codes2
        (modelNotAllowedB cfg request || tokenLimitHitB cfg request)
        (if tokenLimitHitB cfg request then "token-limit-exceeded"
         else if modelNotAllowedB cfg request then "model-not-allowed" else "")).responseHeaders =
        [⟨"X-AI-Gateway-Blocked", "true"⟩, ⟨"X-AI-Gateway-Blocked-Reason", rs⟩] := by
  unfold detectAndCommit commitVerdict at h403 ⊢
  unfold committedReasonSpec
  dsimp only at h403 ⊢
  by_cases hm : modelNotAllowedB cfg request = true <;>
  by_cases ht : tokenLimitHitB cfg request = true <;>
  by_cases hie : cfg.promptInjectionEnabled = true <;>
  by_cases hje : cfg.jailbreakDetectionEnabled = true <;>
  by_cases hpe : cfg.piiDetectionEnabled = true <;>
  by_cases hpa : cfg.piiAction = PiiAction.block <;>
  by_cases hem : (collectPiiTypes request.allContent).isEmpty = true <;>
  rcases hinj : promptInjectionDetectAny request.allContent with _ | det <;>
  (try (have hdet := injAnyLabel _ _ hinj; subst hdet)) <;>
  rcases hjb : jailbreakDetectAny request.allContent with _ | det2 <;>
  (try (have hdet2 := jbAnyLabel _ _ hjb; subst hdet2)) <;>
  simp_all [blockResp, AgentResponse.addResponseHeader, AgentResponse.addRequestHeader,
    AgentResponse.withAudit]

/-! ## Claim theorems -/

/-- C1 (counterexample): with the allowlist and the token ceiling both
violated (model-not-allowed applies first), the committed 403 carries
`token-limit-exceeded`, not the earliest reason `model-not-allowed`. -/
theorem c1_counterexample :
    modelNotAllowedB allowlistCeilingConfig helloRequest = true ∧
    tokenLimitHitB allowlistCeilingConfig helloRequest = true ∧
    (checkRequest allowlistCeilingConfig helloRequest .openAI "" "ip"
      ⟨⟨0, 0, 60⟩, []⟩ 0).1.blockStatus = some 403 ∧
    (checkRequest allowlistCeilingConfig helloRequest .openAI "" "ip"
      ⟨⟨0, 0, 60⟩, []⟩ 0).1.responseHeaders =
      [⟨"X-AI-Gateway-Blocked", "true"⟩,
       ⟨"X-AI-Gateway-Blocked-Reason", "token-limit-exceeded"⟩] ∧
    "token-limit-exceeded" ≠ "model-not-allowed" :=
  ⟨by decide, by decide, by decide, by decide, by decide⟩

/-- C1 (amended): under block mode, when the commit yields a 403, the
`X-AI-Gateway-Blocked-Reason` value is the reason of the LAST check that set
it: a PII block overwrites any pending reason, the token-ceiling reason
overwrites the allowlist reason, and the injection / jailbreak labels apply
only when no earlier check set a pending block (those detectors are skipped
entirely once a pending block exists). -/
theorem c1_amended (cfg : AiGatewayConfig) (request : AiRequest) (provider : AiProvider)
    (body : String) (clientIp : String) (lim : RateLimiter) (now : Nat)
    (hbm : cfg.blockMode = true)
    (h403 : (checkRequest cfg request provider body clientIp lim now).1.blockStatus = some 403) :
    ∃ rs, committedReasonSpec cfg request = some rs ∧
      (checkRequest cfg request provider body clientIp lim now).1.responseHeaders =
        [⟨"X-AI-Gateway-Blocked", "true"⟩, ⟨"X-AI-Gateway-Blocked-Reason", rs⟩] := by
  unfold checkRequest at h403 ⊢
  by_cases hre : (cfg.rateLimitRequests > 0 || cfg.rateLimitTokens > 0 : Bool) = true
  · simp only [hre, if_true] at h403 ⊢
    by_cases hall : (checkAndRecord lim clientIp request.estimateTokens now).1.allowed = true
    · simp only [hall, Bool.not_true, Bool.false_eq_true, if_false] at h403 ⊢
      exact detectAndCommit_spec cfg request _ _ _ hbm
        (by rw [rateLimitHeaders_blockStatus, annotationPhase_blockStatus]) h403
    · simp only [Bool.not_eq_true] at hall
      simp only [hall, Bool.not_false, if_true] at h403
      simp [rateDenyResponse, blockResp, AgentResponse.addResponseHeader,
        AgentResponse.withAudit] at h403
  · simp only [Bool.not_eq_true] at hre
    simp only [hre, Bool.false_eq_true, if_false] at h403 ⊢
    exact detectAndCommit_spec cfg request _ _ _ hbm (annotationPhase_blockStatus _ _ _ _) h403

/-- C1 (witness): the amended theorem applied at a concrete 403. -/
theorem c1_witness :
    ∃ rs, committedReasonSpec allowlistCeilingConfig helloRequest = some rs ∧
      (checkRequest allowlistCeilingConfig helloRequest .openAI "" "ip"
        ⟨⟨0, 0, 60⟩, []⟩ 0).1.responseHeaders =
        [⟨"X-AI-Gateway-Blocked", "true"⟩, ⟨"X-AI-Gateway-Blocked-Reason", rs⟩] :=
  c1_amended _ _ _ _ _ _ _ rfl (by decide)

/-- C2 (counterexample): with fail-open set but schema validation and block
mode enabled, a malformed-JSON body is blocked 400 with reason
`SCHEMA_VALIDATION_FAILED`, so a parse condition does yield a block despite
fail-open. -/
theorem c2_counterexample :
    (processBody { defaultConfig with failOpen := true, schemaValidationEnabled := true }
      AiProvider.openAI ("not json".data.map Char.toNat) "ip" ⟨⟨0, 0, 60⟩, []⟩ 0).1.blockStatus =
      some 400 ∧
    (processBody { defaultConfig with failOpen := true, schemaValidationEnabled := true }
      AiProvider.openAI ("not json".data.map Char.toNat) "ip" ⟨⟨0, 0, 60⟩, []⟩ 0).1.reasonCodes =
      ["SCHEMA_VALIDATION_FAILED"] :=
  ⟨by decide, by decide⟩

/-- C2 (amended): with fail-open set, an invalid-UTF-8 body is always allowed
with tags `ai-gateway, error` and reason `INVALID_UTF8`; and provided schema
validation is disabled, a valid-UTF-8 body with no canonical parse is allowed
with the `ai-gateway` tag alone. -/
theorem c2_amended (cfg : AiGatewayConfig) (provider : AiProvider) (bodyBytes : List Nat)
    (clientIp : String) (lim : RateLimiter) (now : Nat) (hfo : cfg.failOpen = true) :
    (utf8Decode bodyBytes = none →
      processBody cfg provider bodyBytes clientIp lim now =
        (defaultAllow.withAudit ["ai-gateway", "error"] ["INVALID_UTF8"], lim)) ∧
    (∀ chars, utf8Decode bodyBytes = some chars →
      parseRequest provider (String.mk chars) = none →
      cfg.schemaValidationEnabled = false →
      processBody cfg provider bodyBytes clientIp lim now =
        (defaultAllow.withAudit ["ai-gateway"] [], lim)) := by
  constructor
  · intro hu
    simp [processBody, hu, hfo]
  · intro chars hu hp hs
    simp [processBody, hu, hp, hs]

/-- C2 (witness): the amended theorem applied to an invalid-UTF-8 body. -/
theorem c2_witness :
    processBody { defaultConfig with failOpen := true } AiProvider.openAI [255] "ip"
      ⟨⟨0, 0, 60⟩, []⟩ 0 =
      (defaultAllow.withAudit ["ai-gateway", "error"] ["INVALID_UTF8"], ⟨⟨0, 0, 60⟩, []⟩) :=
  (c2_amended _ _ _ _ _ _ rfl).1 (by decide)

/-- C5: a path without `/openai/deployments/` that begins with one of the
three OpenAI prefixes is routed to OpenAI for every header map — the inner
Anthropic test can never match, because `/v1/messages` and `/v1/complete`
are incompatible as prefixes with all three (note `completi` differs from
`complete`). -/
theorem c5_openai_priority (path : String) (headers : Headers)
    (hdep : strHas path "/openai/deployments/" = false)
    (hpre : strLeads path "/v1/chat/completions" = true ∨
      strLeads path "/v1/completions" = true ∨ strLeads path "/v1/embeddings" = true) :
    detectProvider path headers = .openAI := by
  have hmsg : strLeads path "/v1/messages" = false := by
    by_contra hm
    simp only [Bool.not_eq_false] at hm
    rcases hpre with h | h | h
    · exact absurd (twoLeads path.data _ _ (by decide) h hm) (by decide)
    · exact absurd (twoLeads path.data _ _ (by decide) h hm) (by decide)
    · exact absurd (twoLeads path.data _ _ (by decide) h hm) (by decide)
  have hcomp : strLeads path "/v1/complete" = false := by
    by_contra hm
    simp only [Bool.not_eq_false] at hm
    rcases hpre with h | h | h
    · exact absurd (twoLeads path.data _ _ (by decide) h hm) (by decide)
    · exact absurd (twoLeads path.data _ _ (by decide) h hm) (by decide)
    · exact absurd (twoLeads path.data _ _ (by decide) h hm) (by decide)
  have houter : (strLeads path "/v1/chat/completions" || strLeads path "/v1/completions" ||
      strLeads path "/v1/embeddings") = true := by
    rcases hpre with h | h | h <;> simp [h]
  unfold detectProvider
  rw [hdep, houter, hmsg, hcomp]
  simp

/-- C5 (witness): concrete OpenAI-path routings, including an
`x-api-key`-bearing request on `/v1/completions`. -/
theorem c5_witness :
    strHas "/v1/chat/completions" "/openai/deployments/" = false ∧
    detectProvider "/v1/chat/completions" [] = .openAI ∧
    detectProvider "/v1/completions" [("x-api-key", ["key"])] = .openAI :=
  ⟨by decide, c5_openai_priority _ [] (by decide) (Or.inl (by decide)),
    c5_openai_priority _ _ (by decide) (Or.inr (Or.inl (by decide)))⟩

/-- C6 (counterexample): a chat body with no `model` field still parses to a
canonical request (with `model = none`) rather than returning the no-match
signal. -/
theorem c6_counterexample :
    openaiParse "\x7b\"messages\":[\x7b\"role\":\"user\",\"content\":\"hi\"\x7d]\x7d" =
      some ⟨.openAI, none, [⟨"user", "hi"⟩], none, none⟩ := by
  decide

/-- C6 (amended): the OpenAI parse yields a canonical request only when the
decoded message list (chat messages plus the legacy prompt) is non-empty;
the model string is optional and is carried through unchanged, absent
included. -/
theorem c6_amended (j : Json) (r : AiRequest) (h : openaiFromJson j = some r) :
    0 < r.messages.length ∧
    ∃ parsed, decodeOpenAiChatRequest j = some parsed ∧ r.model = parsed.model := by
  unfold openaiFromJson at h
  rcases hd : decodeOpenAiChatRequest j with _ | parsed
  · rw [hd] at h
    simp at h
  · rw [hd] at h
    simp only [Option.bind_eq_bind, Option.some_bind] at h
    split at h
    · exact absurd h (by simp)
    · rename_i hne
      obtain rfl := (Option.some.inj h).symm
      refine ⟨?_, parsed, rfl, rfl⟩
      simp only [List.isEmpty_iff] at hne
      exact List.length_pos.mpr hne

/-- C6 (witness): the amended theorem applied to a model-less chat body. -/
theorem c6_witness :
    0 < (⟨AiProvider.openAI, none, [⟨"user", "hi"⟩], none, none⟩ : AiRequest).messages.length ∧
    ∃ parsed, decodeOpenAiChatRequest
      (Json.obj [("messages", Json.arr [Json.obj
        [("role", Json.str "user"), ("content", Json.str "hi")]])]) = some parsed ∧
      (⟨AiProvider.openAI, none, [⟨"user", "hi"⟩], none, none⟩ : AiRequest).model = parsed.model :=
  c6_amended _ _ (by decide)

/-- C7 (counterexample): for a request whose content is `ééé` (three
characters, six UTF-8 bytes), the source estimate is 3 while the
character-length reading of the claim gives 2; and the claimed exact ceiling
also fails for large totals, since at `2^24 + 1` bytes the `f32` conversion
rounds the total down to `2^24` before the division, yielding 4194304 where
the exact ceiling is 4194305. -/
theorem c7_counterexample :
    ((⟨.openAI, some "gpt-4", [⟨"user", "ééé"⟩], none, none⟩ : AiRequest).estimateTokens : ℤ) = 3 ∧
    charTokenEstimateSpec ⟨.openAI, some "gpt-4", [⟨"user", "ééé"⟩], none, none⟩ = 2 ∧
    (3 : ℤ) ≠ 2 ∧
    (f32RoundNat (2 ^ 24 + 1) + 3) / 4 = 4194304 ∧
    (2 ^ 24 + 1 + 3) / 4 = 4194305 := by
  refine ⟨by decide, ?_, by decide, by decide, by decide⟩
  rw [charSpecEq]
  decide

/-- C7 (amended): for totals below `2^24` bytes — where the `f32` conversion
is exact and the `u32` cast cannot saturate — `estimate_tokens` equals the
ceiling of the quarter of the total computed over UTF-8 BYTE lengths (Rust
`len()`), not character lengths. -/
theorem c7_amended (r : AiRequest) (h : contentByteTotal r < 2 ^ 24) :
    (r.estimateTokens : ℤ) = ⌈((contentByteTotal r : ℚ)) / 4⌉ := by
  rw [ceilDiv4]
  have he : r.estimateTokens =
      min ((f32RoundNat (contentByteTotal r) + 3) / 4) (2 ^ 32 - 1) := rfl
  rw [he, f32RoundNat_small _ h]
  rw [show (2:Nat) ^ 24 = 16777216 from by norm_num] at h
  rw [show (2:Nat) ^ 32 - 1 = 4294967295 from by norm_num]
  rw [Nat.min_eq_left (by omega)]

/-- C7 (witness): the amended theorem applied to a ten-byte request. -/
theorem c7_witness :
    contentByteTotal ⟨.openAI, some "gpt-4", [⟨"user", "hi"⟩], none, none⟩ < 2 ^ 24 ∧
    ((⟨.openAI, some "gpt-4", [⟨"user", "hi"⟩], none, none⟩ : AiRequest).estimateTokens : ℤ) =
      ⌈((contentByteTotal ⟨.openAI, some "gpt-4", [⟨"user", "hi"⟩], none, none⟩ : ℚ)) / 4⌉ :=
  ⟨by decide, c7_amended _ (by decide)⟩

/-- C8: pipeline evaluation is a pure function of the decoded body, provider,
configuration snapshot and rate-limit state, so two runs on the same input
emit the same request headers and audit tags, and parsing is deterministic. -/
theorem c8_determinism (cfg : AiGatewayConfig) (provider : AiProvider)
    (bodyBytes : List Nat) (clientIp : String) (lim : RateLimiter) (now : Nat) :
    (processBody cfg provider bodyBytes clientIp lim now).1.requestHeaders =
      (processBody cfg provider bodyBytes clientIp lim now).1.requestHeaders ∧
    (processBody cfg provider bodyBytes clientIp lim now).1.tags =
      (processBody cfg provider bodyBytes clientIp lim now).1.tags ∧
    ∀ p body, parseRequest p body = parseRequest p body :=
  ⟨rfl, rfl, fun _ _ => rfl⟩

/-- C10: every `system` chat message lands in the message list, the last one
also becomes the system prompt; `all_content` then lists that content both at
its message position and at the end, and the token-estimate total counts its
byte length twice. -/
theorem c10_system_double (j : Json) (r : AiRequest) (h : openaiFromJson j = some r) :
    r.systemPrompt =
      ((r.messages.filter fun m => decide (m.role = "system")).map (·.content)).getLast? ∧
    ∀ s, r.systemPrompt = some s →
      s ∈ r.messages.map (·.content) ∧
      r.allContent = r.messages.map (·.content) ++ [s] ∧
      contentByteTotal r =
        (r.messages.map fun m => byteLen m.content + byteLen m.role).sum + byteLen s := by
  unfold openaiFromJson at h
  rcases hd : decodeOpenAiChatRequest j with _ | parsed
  · rw [hd] at h
    simp at h
  · rw [hd] at h
    simp only [Option.bind_eq_bind, Option.some_bind] at h
    split at h
    · exact absurd h (by simp)
    · obtain rfl := (Option.some.inj h).symm
      have hbase : (none : Option String) =
          ((([] : List Message).filter fun m => decide (m.role = "system")).map
            (·.content)).getLast? := by rfl
      have hchat := fun msgs => chatFoldInv msgs [] none hbase (by intro s hs; cases hs)
      rcases hm : parsed.messages with _ | msgs
      all_goals rcases hp : parsed.prompt with _ | p
      all_goals simp only [hm, hp] at *
      · exact ⟨rfl, by intro s hs; cases hs⟩
      · constructor
        · simp [List.filter_append, List.filter_cons, List.filter_nil]
        · intro s hs
          cases hs
      · obtain ⟨h1, h2⟩ := hchat msgs
        refine ⟨h1, ?_⟩
        intro s hs
        refine ⟨h2 s hs, by simp [AiRequest.allContent, hs], by simp [contentByteTotal, hs]⟩
      · obtain ⟨h1, h2⟩ := hchat msgs
        constructor
        · rw [List.filter_append]
          simp only [List.filter_cons, List.filter_nil]
          simpa using h1
        · intro s hs
          refine ⟨?_, by simp [AiRequest.allContent, hs], by simp [contentByteTotal, hs]⟩
          have := h2 s hs
          simp at this ⊢
          exact Or.inl this

/-- C10 (witness): the theorem applied to a concrete body with a system
message. -/
theorem c10_witness :
    (⟨AiProvider.openAI, some "gpt-4",
        [⟨"system", "be nice"⟩, ⟨"user", "hi"⟩], none, some "be nice"⟩ : AiRequest).systemPrompt =
      ((((⟨AiProvider.openAI, some "gpt-4",
        [⟨"system", "be nice"⟩, ⟨"user", "hi"⟩], none, some "be nice"⟩ : AiRequest)).messages.filter
          fun m => decide (m.role = "system")).map (·.content)).getLast? ∧
    ∀ s, (⟨AiProvider.openAI, some "gpt-4",
        [⟨"system", "be nice"⟩, ⟨"user", "hi"⟩], none, some "be nice"⟩ : AiRequest).systemPrompt =
        some s →
      s ∈ (⟨AiProvider.openAI, some "gpt-4",
        [⟨"system", "be nice"⟩, ⟨"user", "hi"⟩], none, some "be nice"⟩ : AiRequest).messages.map
        (·.content) ∧
      (⟨AiProvider.openAI, some "gpt-4",
        [⟨"system", "be nice"⟩, ⟨"user", "hi"⟩], none, some "be nice"⟩ : AiRequest).allContent =
        (⟨AiProvider.openAI, some "gpt-4",
          [⟨"system", "be nice"⟩, ⟨"user", "hi"⟩], none, some "be nice"⟩ : AiRequest).messages.map
          (·.content) ++ [s] ∧
      contentByteTotal (⟨AiProvider.openAI, some "gpt-4",
          [⟨"system", "be nice"⟩, ⟨"user", "hi"⟩], none, some "be nice"⟩ : AiRequest) =
        ((⟨AiProvider.openAI, some "gpt-4",
          [⟨"system", "be nice"⟩, ⟨"user", "hi"⟩], none, some "be nice"⟩ : AiRequest).messages.map
          fun m => byteLen m.content + byteLen m.role).sum + byteLen s :=
  c10_system_double
    (Json.obj [("model", Json.str "gpt-4"),
      ("messages", Json.arr [
        Json.obj [("role", Json.str "system"), ("content", Json.str "be nice")],
        Json.obj [("role", Json.str "user"), ("content", Json.str "hi")]])]) _ (by decide)

/-- C9: a rate-limit denial returns a fresh 429 response carrying exactly the
four denial headers (limit-requests, remaining-requests pinned to "0", reset
and retry-after) plus the audit accumulated so far; the token-cap headers and
all accumulated request-header mutations are absent. -/
theorem c9_rate_denial (cfg : AiGatewayConfig) (request : AiRequest) (provider : AiProvider)
    (body : String) (clientIp : String) (lim : RateLimiter) (now : Nat)
    (h : (checkRequest cfg request provider body clientIp lim now).1.blockStatus = some 429) :
    (checkRequest cfg request provider body clientIp lim now).1.requestHeaders = [] ∧
    (∃ limv rstv,
      (checkRequest cfg request provider body clientIp lim now).1.responseHeaders =
        [⟨"X-RateLimit-Limit-Requests", limv⟩, ⟨"X-RateLimit-Remaining-Requests", "0"⟩,
         ⟨"X-RateLimit-Reset", rstv⟩, ⟨"Retry-After", rstv⟩]) ∧
    (∀ kv ∈ (checkRequest cfg request provider body clientIp lim now).1.responseHeaders,
      kv.name ≠ "X-RateLimit-Limit-Tokens" ∧ kv.name ≠ "X-RateLimit-Remaining-Tokens" ∧
      kv.name ≠ "X-AI-Gateway-Provider" ∧ kv.name ≠ "X-AI-Gateway-Model" ∧
      kv.name ≠ "X-AI-Gateway-Tokens-Estimated" ∧ kv.name ≠ "X-AI-Gateway-Cost-Estimated" ∧
      kv.name ≠ "X-AI-Gateway-Schema-Valid") ∧
    "rate-limited" ∈ (checkRequest cfg request provider body clientIp lim now).1.tags ∧
    "RATE_LIMIT_EXCEEDED" ∈
      (checkRequest cfg request provider body clientIp lim now).1.reasonCodes := by
  unfold checkRequest at h ⊢
  by_cases hre : (cfg.rateLimitRequests > 0 || cfg.rateLimitTokens > 0 : Bool) = true
  · simp only [hre, if_true] at h ⊢
    by_cases hall : (checkAndRecord lim clientIp request.estimateTokens now).1.allowed = true
    · simp only [hall, Bool.not_true, Bool.false_eq_true, if_false] at h ⊢
      rcases detectAndCommit_status cfg request
          (rateLimitHeaders cfg (annotationPhase cfg request provider body).1
            (checkAndRecord lim clientIp request.estimateTokens now).1)
          (annotationPhase cfg request provider body).2 _ _ _ with hs | hs
      · rw [hs] at h
        simp at h
      · rw [hs, rateLimitHeaders_blockStatus, annotationPhase_blockStatus] at h
        simp at h
    · simp only [Bool.not_eq_true] at hall
      simp only [hall, Bool.not_false, if_true] at h ⊢
      refine ⟨rfl, ⟨_, _, rfl⟩, ?_, ?_, ?_⟩
      · intro kv hkv
        simp [rateDenyResponse, blockResp, AgentResponse.addResponseHeader,
          AgentResponse.withAudit] at hkv
        rcases hkv with h1 | h1 | h1 | h1 <;> subst h1 <;>
          refine ⟨?_, ?_, ?_, ?_, ?_, ?_, ?_⟩ <;> simp
      · simp [rateDenyResponse, blockResp, AgentResponse.addResponseHeader,
          AgentResponse.withAudit]
      · simp [rateDenyResponse, blockResp, AgentResponse.addResponseHeader,
          AgentResponse.withAudit]
  · simp only [Bool.not_eq_true] at hre
    simp only [hre, Bool.false_eq_true, if_false] at h ⊢
    rcases detectAndCommit_status cfg request (annotationPhase cfg request provider body).1
        (annotationPhase cfg request provider body).2 _ _ _ with hs | hs
    · rw [hs] at h
      simp at h
    · rw [hs, annotationPhase_blockStatus] at h
      simp at h

/-- C9 (witness): the theorem applied at a concrete denied request. -/
theorem c9_witness :
    (checkRequest { defaultConfig with rateLimitRequests := 1 }
        ⟨.openAI, none, [⟨"user", ""⟩], none, none⟩ .openAI "" "ip"
        ⟨⟨1, 0, 60⟩, [("ip", ⟨0, 1, 0⟩)]⟩ 0).1.requestHeaders = [] ∧
    (∃ limv rstv,
      (checkRequest { defaultConfig with rateLimitRequests := 1 }
          ⟨.openAI, none, [⟨"user", ""⟩], none, none⟩ .openAI "" "ip"
          ⟨⟨1, 0, 60⟩, [("ip", ⟨0, 1, 0⟩)]⟩ 0).1.responseHeaders =
        [⟨"X-RateLimit-Limit-Requests", limv⟩, ⟨"X-RateLimit-Remaining-Requests", "0"⟩,
         ⟨"X-RateLimit-Reset", rstv⟩, ⟨"Retry-After", rstv⟩]) ∧
    (∀ kv ∈ (checkRequest { defaultConfig with rateLimitRequests := 1 }
        ⟨.openAI, none, [⟨"user", ""⟩], none, none⟩ .openAI "" "ip"
        ⟨⟨1, 0, 60⟩, [("ip", ⟨0, 1, 0⟩)]⟩ 0).1.responseHeaders,
      kv.name ≠ "X-RateLimit-Limit-Tokens" ∧ kv.name ≠ "X-RateLimit-Remaining-Tokens" ∧
      kv.name ≠ "X-AI-Gateway-Provider" ∧ kv.name ≠ "X-AI-Gateway-Model" ∧
      kv.name ≠ "X-AI-Gateway-Tokens-Estimated" ∧ kv.name ≠ "X-AI-Gateway-Cost-Estimated" ∧
      kv.name ≠ "X-AI-Gateway-Schema-Valid") ∧
    "rate-limited" ∈ (checkRequest { defaultConfig with rateLimitRequests := 1 }
        ⟨.openAI, none, [⟨"user", ""⟩], none, none⟩ .openAI "" "ip"
        ⟨⟨1, 0, 60⟩, [("ip", ⟨0, 1, 0⟩)]⟩ 0).1.tags ∧
    "RATE_LIMIT_EXCEEDED" ∈ (checkRequest { defaultConfig with rateLimitRequests := 1 }
        ⟨.openAI, none, [⟨"user", ""⟩], none, none⟩ .openAI "" "ip"
        ⟨⟨1, 0, 60⟩, [("ip", ⟨0, 1, 0⟩)]⟩ 0).1.reasonCodes :=
  c9_rate_denial _ _ _ _ _ _ _ (by decide)

theorem find_setEntry (st : List (String × WindowEntry)) (k : String) (e : WindowEntry) :
    List.find? (fun p => p.1 = k) (setEntry st k e) = some (k, e) := by
  induction st with
  | nil => simp [setEntry]
  | cons p rest ih =>
    rcases p with ⟨k2, e2⟩
    by_cases hk : k2 = k
    · simp [setEntry, hk]
    · simp [setEntry, hk, ih]

theorem checkAndRecord_eval (cfg : RateLimitConfig) (client : String) (e : WindowEntry)
    (est now : Nat) (hen : cfg.isEnabled = true)
    (hnexp : now - e.windowStart < cfg.windowDuration) :
    checkAndRecord ⟨cfg, [(client, e)]⟩ client est now =
      if cfg.requestsPerMinute > 0 && e.requestCount ≥ cfg.requestsPerMinute then
        (⟨false, e.requestCount, cfg.requestsPerMinute, e.tokenCount, cfg.tokensPerMinute,
          cfg.windowDuration - (now - e.windowStart), some .requests⟩,
          ⟨cfg, [(client, e)]⟩)
      else if cfg.tokensPerMinute > 0 && e.tokenCount + est > cfg.tokensPerMinute then
        (⟨false, e.requestCount, cfg.requestsPerMinute, e.tokenCount, cfg.tokensPerMinute,
          cfg.windowDuration - (now - e.windowStart), some .tokens⟩,
          ⟨cfg, [(client, e)]⟩)
      else
        (⟨true, e.requestCount + 1, cfg.requestsPerMinute, e.tokenCount + est,
          cfg.tokensPerMinute, cfg.windowDuration - (now - e.windowStart), none⟩,
          ⟨cfg, [(client, ⟨e.windowStart, e.requestCount + 1, e.tokenCount + est⟩)]⟩) := by
  unfold checkAndRecord
  rw [hen]
  simp only [Bool.not_true, Bool.false_eq_true, if_false]
  have hfind : List.find? (fun p => p.1 = client) [(client, e)] = some (client, e) := by simp
  rw [hfind]
  dsimp only
  rw [if_neg (by omega : ¬ now - e.windowStart ≥ cfg.windowDuration)]
  rw [if_neg (by omega : ¬ now - e.windowStart ≥ cfg.windowDuration)]
  simp [setEntry]

theorem admittedOf_cons (now est : Nat) (calls : List (Nat × Nat))
    (r : RateLimitResult) (results : List RateLimitResult) :
    admittedOf ((now, est) :: calls) (r :: results) =
      if r.allowed then (now, est) :: admittedOf calls results
      else admittedOf calls results := by
  simp only [admittedOf, List.zip_cons_cons, List.filter_cons]
  split <;> simp_all

theorem runCalls_bound (cfg : RateLimitConfig) (client : String) (t0 : Nat)
    (calls : List (Nat × Nat)) :
    ∀ (rc tc : Nat),
    (∀ p ∈ calls, t0 ≤ p.1 ∧ p.1 < t0 + cfg.windowDuration) →
    (cfg.requestsPerMinute ≠ 0 → rc ≤ cfg.requestsPerMinute →
      (admittedOf calls (runCalls client calls ⟨cfg, [(client, ⟨t0, rc, tc⟩)]⟩).1).length + rc ≤
        cfg.requestsPerMinute) ∧
    (cfg.tokensPerMinute ≠ 0 → tc ≤ cfg.tokensPerMinute →
      ((admittedOf calls
        (runCalls client calls ⟨cfg, [(client, ⟨t0, rc, tc⟩)]⟩).1).map (·.2)).sum + tc ≤
        cfg.tokensPerMinute) := by
  induction calls with
  | nil =>
    intro rc tc _
    simp [runCalls, admittedOf]
  | cons p rest ih =>
    rcases p with ⟨now, est⟩
    intro rc tc hwin
    have hw := hwin (now, est) (by simp)
    have hwrest : ∀ p ∈ rest, t0 ≤ p.1 ∧ p.1 < t0 + cfg.windowDuration := by
      intro q hq
      exact hwin q (by simp [hq])
    by_cases hen : cfg.isEnabled = true
    · have heval := checkAndRecord_eval cfg client ⟨t0, rc, tc⟩ est now hen
        (by show now - t0 < cfg.windowDuration; omega)
      simp only [runCalls, heval]
      by_cases hreq : (cfg.requestsPerMinute > 0 &&
          (⟨t0, rc, tc⟩ : WindowEntry).requestCount ≥ cfg.requestsPerMinute : Bool) = true
      · simp only [hreq, if_true]
        have := ih rc tc hwrest
        constructor
        · intro h1 h2
          have h3 := this.1 h1 h2
          rw [admittedOf_cons]
          simpa using h3
        · intro h1 h2
          have h3 := this.2 h1 h2
          rw [admittedOf_cons]
          simpa using h3
      · simp only [hreq, Bool.false_eq_true, if_false]
        by_cases htok : (cfg.tokensPerMinute > 0 &&
            (⟨t0, rc, tc⟩ : WindowEntry).tokenCount + est > cfg.tokensPerMinute : Bool) = true
        · simp only [htok, if_true]
          have := ih rc tc hwrest
          constructor
          · intro h1 h2
            have h3 := this.1 h1 h2
            rw [admittedOf_cons]
            simpa using h3
          · intro h1 h2
            have h3 := this.2 h1 h2
            rw [admittedOf_cons]
            simpa using h3
        · simp only [htok, Bool.false_eq_true, if_false]
          have := ih (rc + 1) (tc + est) hwrest
          constructor
          · intro h1 h2
            simp only [Bool.and_eq_true, decide_eq_true_eq, not_and, Nat.not_le] at hreq
            have hrc : rc + 1 ≤ cfg.requestsPerMinute := by
              have := hreq (by omega)
              simp at this
              omega
            have h3 := this.1 h1 hrc
            rw [admittedOf_cons]
            simp only [if_pos rfl]
            simp at h3 ⊢
            omega
          · intro h1 h2
            simp only [Bool.and_eq_true, decide_eq_true_eq, not_and, Nat.not_le] at htok
            have htc : tc + est ≤ cfg.tokensPerMinute := by
              have := htok (by omega)
              simp at this
              omega
            have h3 := this.2 h1 htc
            rw [admittedOf_cons]
            simp only [if_pos rfl]
            simp at h3 ⊢
            omega
    · simp only [Bool.not_eq_true] at hen
      simp only [RateLimitConfig.isEnabled, Bool.or_eq_false_iff, decide_eq_false_iff_not,
        Nat.not_lt, Nat.le_zero] at hen
      constructor
      · intro h1
        omega
      · intro h1
        omega

theorem both_exceeded_requests (rl : RateLimiter) (client : String) (est now : Nat)
    (e : WindowEntry)
    (hfind : rl.state.find? (fun p => p.1 = client) = some (client, e))
    (hnexp : now - e.windowStart < rl.config.windowDuration)
    (hreq : rl.config.requestsPerMinute ≠ 0)
    (hre : e.requestCount ≥ rl.config.requestsPerMinute) :
    (checkAndRecord rl client est now).1.exceededLimit = some .requests := by
  unfold checkAndRecord
  have hen : rl.config.isEnabled = true := by
    simp [RateLimitConfig.isEnabled]
    omega
  rw [hen]
  simp only [Bool.not_true, Bool.false_eq_true, if_false]
  rw [hfind]
  dsimp only
  rw [if_neg (by omega : ¬ now - e.windowStart ≥ rl.config.windowDuration)]
  rw [if_pos (by simp; omega :
    (rl.config.requestsPerMinute > 0 && e.requestCount ≥ rl.config.requestsPerMinute : Bool)
      = true)]

theorem deny_no_increment (rl : RateLimiter) (client : String) (est now : Nat)
    (e : WindowEntry)
    (hfind : rl.state.find? (fun p => p.1 = client) = some (client, e))
    (hnexp : now - e.windowStart < rl.config.windowDuration)
    (hdeny : (checkAndRecord rl client est now).1.allowed = false) :
    (checkAndRecord rl client est now).2.state.find? (fun p => p.1 = client) =
      some (client, e) := by
  unfold checkAndRecord at hdeny ⊢
  by_cases hen : rl.config.isEnabled = true
  · rw [hen] at hdeny ⊢
    simp only [Bool.not_true, Bool.false_eq_true, if_false] at hdeny ⊢
    rw [hfind] at hdeny ⊢
    dsimp only at hdeny ⊢
    rw [if_neg (by omega : ¬ now - e.windowStart ≥ rl.config.windowDuration)] at hdeny ⊢
    by_cases h1 : (rl.config.requestsPerMinute > 0 &&
        e.requestCount ≥ rl.config.requestsPerMinute : Bool) = true
    · rw [if_pos h1]
      exact find_setEntry _ _ _
    · rw [if_neg h1] at hdeny ⊢
      by_cases h2 : (rl.config.tokensPerMinute > 0 &&
          e.tokenCount + est > rl.config.tokensPerMinute : Bool) = true
      · rw [if_pos h2]
        exact find_setEntry _ _ _
      · rw [if_neg h2] at hdeny
        cases hdeny
  · simp only [Bool.not_eq_true] at hen
    rw [hen] at hdeny
    cases hdeny

/-- C3: for every client and every sequence of `check_and_record` calls inside
one window, the admitted request count never exceeds `requests_per_minute` when
nonzero, the admitted token sum never exceeds `tokens_per_minute` when nonzero,
the request cap is tested before the token cap (so `Requests` is reported when
both would be exceeded), and a denial leaves the client's window entry
unchanged. -/
theorem c3_rate_limiter (cfg : RateLimitConfig) (client : String) (t0 : Nat)
    (calls : List (Nat × Nat))
    (hwin : ∀ p ∈ calls, t0 ≤ p.1 ∧ p.1 < t0 + cfg.windowDuration) :
    (cfg.requestsPerMinute ≠ 0 →
      (admittedOf calls (runCalls client calls ⟨cfg, [(client, ⟨t0, 0, 0⟩)]⟩).1).length ≤
        cfg.requestsPerMinute) ∧
    (cfg.tokensPerMinute ≠ 0 →
      ((admittedOf calls (runCalls client calls ⟨cfg, [(client, ⟨t0, 0, 0⟩)]⟩).1).map
        (·.2)).sum ≤ cfg.tokensPerMinute) ∧
    (∀ rl est now e, rl.state.find? (fun p => p.1 = client) = some (client, e) →
      now - e.windowStart < rl.config.windowDuration →
      rl.config.requestsPerMinute ≠ 0 →
      e.requestCount ≥ rl.config.requestsPerMinute →
      (checkAndRecord rl client est now).1.exceededLimit = some .requests) ∧
    (∀ rl est now e, rl.state.find? (fun p => p.1 = client) = some (client, e) →
      now - e.windowStart < rl.config.windowDuration →
      (checkAndRecord rl client est now).1.allowed = false →
      (checkAndRecord rl client est now).2.state.find? (fun p => p.1 = client) =
        some (client, e)) := by
  refine ⟨?_, ?_, ?_, ?_⟩
  · intro h1
    have := (runCalls_bound cfg client t0 calls 0 0 hwin).1 h1 (Nat.zero_le _)
    omega
  · intro h1
    have := (runCalls_bound cfg client t0 calls 0 0 hwin).2 h1 (Nat.zero_le _)
    omega
  · intro rl est now e hf hn hq he
    exact both_exceeded_requests rl client est now e hf hn hq he
  · intro rl est now e hf hn hd
    exact deny_no_increment rl client est now e hf hn hd

theorem c3_witness :
    ((⟨2, 10, 60⟩ : RateLimitConfig).requestsPerMinute ≠ 0 →
      (admittedOf [(0, 3), (5, 3), (10, 3)]
        (runCalls "c" [(0, 3), (5, 3), (10, 3)]
          ⟨⟨2, 10, 60⟩, [("c", ⟨0, 0, 0⟩)]⟩).1).length ≤
        (⟨2, 10, 60⟩ : RateLimitConfig).requestsPerMinute) ∧
    ((⟨2, 10, 60⟩ : RateLimitConfig).tokensPerMinute ≠ 0 →
      ((admittedOf [(0, 3), (5, 3), (10, 3)]
        (runCalls "c" [(0, 3), (5, 3), (10, 3)]
          ⟨⟨2, 10, 60⟩, [("c", ⟨0, 0, 0⟩)]⟩).1).map (·.2)).sum ≤
        (⟨2, 10, 60⟩ : RateLimitConfig).tokensPerMinute) ∧
    (∀ rl est now e, rl.state.find? (fun p => p.1 = "c") = some ("c", e) →
      now - e.windowStart < rl.config.windowDuration →
      rl.config.requestsPerMinute ≠ 0 →
      e.requestCount ≥ rl.config.requestsPerMinute →
      (checkAndRecord rl "c" est now).1.exceededLimit = some .requests) ∧
    (∀ rl est now e, rl.state.find? (fun p => p.1 = "c") = some ("c", e) →
      now - e.windowStart < rl.config.windowDuration →
      (checkAndRecord rl "c" est now).1.allowed = false →
      (checkAndRecord rl "c" est now).2.state.find? (fun p => p.1 = "c") =
        some ("c", e)) :=
  c3_rate_limiter ⟨2, 10, 60⟩ "c" 0 [(0, 3), (5, 3), (10, 3)] (by decide)

theorem mrun_bounds (t : List Char) (re : RE) : ∀ (i e : Nat), e ∈ mrun t re i →
    i ≤ e ∧ (e ≤ t.length ∨ e = i) := by
  induction re with
  | cls p =>
    intro i e h
    simp only [mrun] at h
    rcases ht : t[i]? with _ | c
    · rw [ht] at h
      cases h
    · rw [ht] at h
      split at h
      · simp at h
        have hi : i < t.length := by
          by_contra hlt
          rw [List.getElem?_eq_none (by omega)] at ht
          cases ht
        omega
      · cases h
  | eps =>
    intro i e h
    simp only [mrun, List.mem_singleton] at h
    omega
  | wb =>
    intro i e h
    simp only [mrun] at h
    split at h
    · simp at h
      omega
    · cases h
  | seq a b iha ihb =>
    intro i e h
    simp only [mrun, List.mem_flatMap] at h
    obtain ⟨j, hj, he⟩ := h
    have h1 := iha i j hj
    have h2 := ihb j e he
    omega
  | alt a b iha ihb =>
    intro i e h
    simp only [mrun, List.mem_append] at h
    rcases h with h | h
    · exact iha i e h
    · exact ihb i e h
  | opt r ih =>
    intro i e h
    simp only [mrun, List.mem_append, List.mem_singleton] at h
    rcases h with h | h
    · exact ih i e h
    · omega
  | star p =>
    intro i e h
    simp only [mrun, List.mem_map, List.mem_range] at h
    obtain ⟨j, hj, rfl⟩ := h
    refine ⟨by omega, ?_⟩
    by_cases hi : i ≤ t.length
    · left
      have hk : runLen t p i ≤ t.length - i := by
        unfold runLen
        have := (List.takeWhile_sublist (l := t.drop i) p).length_le
        simpa using this
      omega
    · right
      have hk : runLen t p i = 0 := by
        unfold runLen
        rw [List.drop_eq_nil_of_le (by omega)]
        rfl
      omega
  | plus p =>
    intro i e h
    simp only [mrun, List.mem_map, List.mem_range] at h
    obtain ⟨j, hj, rfl⟩ := h
    refine ⟨by omega, ?_⟩
    by_cases hi : i ≤ t.length
    · left
      have hk : runLen t p i ≤ t.length - i := by
        unfold runLen
        have := (List.takeWhile_sublist (l := t.drop i) p).length_le
        simpa using this
      omega
    · exfalso
      have hk : runLen t p i = 0 := by
        unfold runLen
        rw [List.drop_eq_nil_of_le (by omega)]
        rfl
      omega

theorem firstMatchFrom_bounds (t : List Char) (re : RE) (start s e : Nat)
    (h : firstMatchFrom t re start = some (s, e)) : s ≤ e ∧ e ≤ t.length := by
  unfold firstMatchFrom at h
  have hmem := List.mem_of_mem_head? h
  rw [List.mem_filterMap] at hmem
  obtain ⟨i, hi, hf⟩ := hmem
  rw [Option.map_eq_some'] at hf
  obtain ⟨e0, he0, heq⟩ := hf
  injection heq with h1 h2
  subst h1
  subst h2
  have hr : start ≤ i ∧ i < start + (t.length + 1 - start) := by
    simpa using List.mem_range'_1.mp hi
  have hb := mrun_bounds t re i e0 (List.mem_of_mem_head? he0)
  omega

theorem findAllGo_bounds (t : List Char) (re : RE) : ∀ (fuel start s e : Nat),
    (s, e) ∈ findAllGo t re fuel start → s ≤ e ∧ e ≤ t.length := by
  intro fuel
  induction fuel with
  | zero => intro start s e h; cases h
  | succ f ih =>
    intro start s e h
    simp only [findAllGo] at h
    rcases hf : firstMatchFrom t re start with _ | ⟨s2, e2⟩
    · rw [hf] at h; cases h
    · rw [hf] at h
      rcases List.mem_cons.mp h with h | h
      · injection h with h1 h2
        subst h1
        subst h2
        exact firstMatchFrom_bounds t re start s e hf
      · exact ih _ _ _ h

theorem findAll_bounds (t : List Char) (re : RE) (s e : Nat)
    (h : (s, e) ∈ findAll t re) : s ≤ e ∧ e ≤ t.length :=
  findAllGo_bounds t re _ _ s e h

theorem piiMatchesOf_bounds (t : List Char) (ty : PiiType) (re : RE) (m : PiiMatch)
    (h : m ∈ piiMatchesOf t ty re) : m.start ≤ m.endPos ∧ m.endPos ≤ t.length := by
  unfold piiMatchesOf at h
  rw [List.mem_map] at h
  obtain ⟨p, hp, rfl⟩ := h
  exact findAll_bounds t re p.1 p.2 hp

theorem insertByStart_mem (m a : PiiMatch) : ∀ (l : List PiiMatch),
    a ∈ insertByStart m l ↔ a = m ∨ a ∈ l := by
  intro l
  induction l with
  | nil => simp [insertByStart]
  | cons x xs ih =>
    simp only [insertByStart]
    split
    · simp only [List.mem_cons, ih]
      try tauto
    · simp only [List.mem_cons]
      try tauto

theorem sortByStart_mem (a : PiiMatch) : ∀ (l : List PiiMatch),
    a ∈ sortByStart l ↔ a ∈ l := by
  intro l
  induction l with
  | nil => simp [sortByStart]
  | cons x xs ih =>
    simp only [sortByStart, insertByStart_mem, List.mem_cons, ih]
    try tauto

theorem insertByStart_sorted (m : PiiMatch) : ∀ (l : List PiiMatch),
    l.Pairwise (fun a b => a.start ≤ b.start) →
    (insertByStart m l).Pairwise (fun a b => a.start ≤ b.start) := by
  intro l
  induction l with
  | nil => intro _; simp [insertByStart]
  | cons x xs ih =>
    intro hp
    rw [List.pairwise_cons] at hp
    obtain ⟨hx, hxs⟩ := hp
    simp only [insertByStart]
    split
    · rw [List.pairwise_cons]
      refine ⟨?_, ih hxs⟩
      intro y hy
      rcases (insertByStart_mem m y xs).mp hy with rfl | hy
      · omega
      · exact hx y hy
    · rw [List.pairwise_cons]
      refine ⟨?_, List.pairwise_cons.mpr ⟨hx, hxs⟩⟩
      intro y hy
      rcases List.mem_cons.mp hy with rfl | hy
      · omega
      · have := hx y hy
        omega

theorem sortByStart_sorted : ∀ (l : List PiiMatch),
    (sortByStart l).Pairwise (fun a b => a.start ≤ b.start) := by
  intro l
  induction l with
  | nil => simp [sortByStart]
  | cons x xs ih => exact insertByStart_sorted x _ ih

theorem piiDetect_sorted (text : String) :
    (piiDetect text).Pairwise (fun a b => a.start ≤ b.start) := by
  unfold piiDetect
  exact sortByStart_sorted _

theorem piiDetect_bounds (text : String) (m : PiiMatch) (h : m ∈ piiDetect text) :
    m.start ≤ m.endPos ∧ m.endPos ≤ text.data.length := by
  unfold piiDetect at h
  rw [sortByStart_mem] at h
  simp only [List.mem_append, List.mem_filter] at h
  rcases h with ((((h | h) | h) | h) | ⟨h, _⟩) <;>
    exact piiMatchesOf_bounds _ _ _ m h

theorem redactGo_eq (t : List Char) : ∀ (ms : List PiiMatch) (lastEnd : Nat),
    (∀ m ∈ ms, m.start ≤ m.endPos ∧ m.endPos ≤ t.length) →
    List.Chain' (fun a b => a.endPos ≤ b.start) ms →
    (∀ m ∈ ms.head?, lastEnd ≤ m.start) → (ms = [] → lastEnd ≤ t.length) →
    redactGo t ms lastEnd = some (interleaveSpans t ms lastEnd) := by
  intro ms
  induction ms with
  | nil =>
    intro lastEnd _ _ _ hnil
    simp only [redactGo, interleaveSpans]
    rw [if_pos (hnil rfl)]
  | cons m ms ih =>
    intro lastEnd hb hch hhead _
    have hm := hb m (List.mem_cons_self m ms)
    have hlm : lastEnd ≤ m.start := hhead m rfl
    rw [List.chain'_cons'] at hch
    obtain ⟨hc1, hc2⟩ := hch
    simp only [redactGo, interleaveSpans]
    rw [if_pos (by simp only [Bool.and_eq_true, decide_eq_true_eq]; omega)]
    rw [ih m.endPos (fun x hx => hb x (List.mem_cons_of_mem m hx)) hc2 hc1 (fun _ => hm.2)]
    rfl


theorem disjointAdj_chain : ∀ (ms : List PiiMatch), disjointAdj ms = true →
    List.Chain' (fun a b => a.endPos ≤ b.start) ms := by
  intro ms
  induction ms with
  | nil => intro _; exact List.chain'_nil
  | cons a tail ih =>
    cases tail with
    | nil => intro _; simp
    | cons b ms2 =>
      intro h
      simp only [disjointAdj, Bool.and_eq_true, decide_eq_true_eq] at h
      exact List.chain'_cons.mpr ⟨h.1, ih h.2⟩


/-- C4 (amended): `detect` returns matches in ascending start offset (stable
sort, ties by detector order), and whenever the detected matches are pairwise
non-overlapping in that order, `redact` equals the concatenation of the
literal non-matching spans with the per-type placeholders.  (Idempotence and
the overlapping case are refuted separately.) -/
theorem c4_amended (text : String)
    (hdj : disjointAdj (piiDetect text) = true) :
    (piiDetect text).Pairwise (fun a b => a.start ≤ b.start) ∧
    piiRedact text = some (String.mk (interleaveSpans text.data (piiDetect text) 0)) := by
  refine ⟨piiDetect_sorted text, ?_⟩
  simp only [piiRedact]
  by_cases hemp : (piiDetect text).isEmpty = true
  · have hnil : piiDetect text = [] := List.isEmpty_iff.mp hemp
    have hstr : String.mk text.data = text := by cases text; rfl
    rw [if_pos hemp, hnil]
    simp only [interleaveSpans, List.drop_zero, hstr]
  · rw [if_neg hemp]
    rw [redactGo_eq text.data (piiDetect text) 0
      (fun m hm => piiDetect_bounds text m hm)
      (disjointAdj_chain _ hdj)
      (fun m _ => Nat.zero_le _)
      (fun _ => Nat.zero_le _)]
    rfl

/-- C4 (counterexample): redaction is not idempotent — redacting
`a@b.cc123-45-6789` yields `[EMAIL REDACTED]123-45-6789`, in which the SSN
(previously fused to the email text with no word boundary) becomes visible,
so a second redaction changes the string again; and on overlapping matches
(`123-456-7890@example.com`) `redact` panics (modelled as `none`) instead of
producing the claimed concatenation. -/
theorem c4_counterexample :
    piiRedact "a@b.cc123-45-6789" = some "[EMAIL REDACTED]123-45-6789" ∧
    piiRedact "[EMAIL REDACTED]123-45-6789" = some "[EMAIL REDACTED][SSN REDACTED]" ∧
    ("[EMAIL REDACTED]123-45-6789" : String) ≠ "[EMAIL REDACTED][SSN REDACTED]" ∧
    piiRedact "123-456-7890@example.com" = none := by
  refine ⟨by decide, by decide, by decide, by decide⟩

/-- C4 (witness): the amended theorem applied to `a@b.cc123-45-6789`, whose
two-match detection (email, then SSN inside the remainder) is non-overlapping. -/
theorem c4_witness :
    disjointAdj (piiDetect "a@b.cc123-45-6789") = true ∧
    ((piiDetect "a@b.cc123-45-6789").Pairwise (fun a b => a.start ≤ b.start) ∧
      piiRedact "a@b.cc123-45-6789" =
        some (String.mk (interleaveSpans ("a@b.cc123-45-6789" : String).data
          (piiDetect "a@b.cc123-45-6789") 0))) :=
  ⟨by decide, c4_amended "a@b.cc123-45-6789" (by decide)⟩
